import Mathlib

/-!
# CT-API front end of OpenCT: the CTBCS pseudo-APDU dispatcher

A shallow embedding of `src/ctapi/ctapi.c` and a verification of its
response discipline.

Conventions of the embedding.

* Bytes, offsets and lengths are natural numbers; a value computed or loaded
  into an `unsigned char` variable is reduced modulo 256.  The header fields
  `cla`, `ins`, `p1`, `p2` and the address byte `*dad` are bytes as they come;
  sizes are taken to lie in the range of their C types.
* A memory region handed in by the caller (`cmd`, `rsp`) is a list of bytes;
  its length parameter is passed separately, as in C.
* The two local arrays of the C code (`msgbuf[256]`, `atr[64]`) are lists as
  well; an access past their end is the fault `out_of_bounds`.
* The only loop without a syntactic bound is the TLV walk of
  `ifd_ctapi_request_icc`; it is run with fuel, and running out of it is the
  fault `out_of_fuel`.
* The reader driver and the APDU header parser are external: they are
  parameters.  The driver is an arbitrary state transformer; every call that
  leaves the translation unit is recorded in a call log.
* The constants of `ctapi.h`, `ctbcs.h` and `ifd.h` are parameters, collected
  in `Consts`.
-/

namespace Ctapi

/-! ## Constants -/

/-- The symbolic constants used by `ctapi.c`.  Their defining headers are not
part of the sources at hand, so the values are parameters. -/
structure Consts where
  OK : Int
  ERR_INVALID : Int
  ERR_TRANS : Int
  CTBCS_CLA : Nat
  CTBCS_INS_RESET : Nat
  CTBCS_INS_REQUEST_ICC : Nat
  CTBCS_INS_STATUS : Nat
  CTBCS_UNIT_INTERFACE1 : Nat
  CTBCS_UNIT_INTERFACE2 : Nat
  CTBCS_P2_RESET_NO_RESP : Nat
  CTBCS_P2_RESET_GET_ATR : Nat
  CTBCS_P2_RESET_GET_HIST : Nat
  CTBCS_DATA_STATUS_NOCARD : Nat
  CTBCS_DATA_STATUS_CARD_CONNECT : Nat
  CTBCS_SW_BAD_LENGTH : Nat
  CTBCS_SW_BAD_PARAMS : Nat
  CTBCS_SW_BAD_INS : Nat
  CTBCS_SW_BAD_CLASS : Nat
  IFD_CARD_PRESENT : Nat
deriving Repr, DecidableEq

/-- The values these constants have in the CT-API and CT-BCS standards; used to
instantiate the general theorems. -/
def ctbcs : Consts where
  OK := 0
  ERR_INVALID := -1
  ERR_TRANS := -10
  CTBCS_CLA := 0x20
  CTBCS_INS_RESET := 0x11
  CTBCS_INS_REQUEST_ICC := 0x12
  CTBCS_INS_STATUS := 0x13
  CTBCS_UNIT_INTERFACE1 := 0x01
  CTBCS_UNIT_INTERFACE2 := 0x02
  CTBCS_P2_RESET_NO_RESP := 0x00
  CTBCS_P2_RESET_GET_ATR := 0x01
  CTBCS_P2_RESET_GET_HIST := 0x02
  CTBCS_DATA_STATUS_NOCARD := 0x00
  CTBCS_DATA_STATUS_CARD_CONNECT := 0x05
  CTBCS_SW_BAD_LENGTH := 0x6700
  CTBCS_SW_BAD_PARAMS := 0x6a00
  CTBCS_SW_BAD_INS := 0x6d00
  CTBCS_SW_BAD_CLASS := 0x6e00
  IFD_CARD_PRESENT := 0x0001

/-- The five status words the dispatcher can emit. -/
def Consts.status_words (K : Consts) : List Nat :=
  [0x9000, K.CTBCS_SW_BAD_CLASS, K.CTBCS_SW_BAD_INS, K.CTBCS_SW_BAD_PARAMS,
   K.CTBCS_SW_BAD_LENGTH]

/-- Big-endian two-byte encoding of (the low 16 bits of) a status word. -/
def be16 (sw : Nat) : List Nat := [sw / 256 % 256, sw % 256]

/-! ## Bounded buffer (`openct/buffer.h`) -/

/-- The buffer record of `buffer.h`: storage and three unsigned cursors. -/
structure ct_buf_t where
  base : List Nat
  head : Nat
  tail : Nat
  size : Nat
deriving Repr, DecidableEq

/-- Overwrite `data.length` bytes of `mem` starting at offset `off`. -/
def mem_write (mem : List Nat) (off : Nat) (data : List Nat) : List Nat :=
  mem.take off ++ data ++ mem.drop (off + data.length)

/-- Modelled from the spec: `ct_buf_init` is only declared in `buffer.h`, its
body is in a file that is not at hand.  It wraps a region of the given capacity
with `head = tail = 0`. -/
def ct_buf_init (mem : List Nat) (len : Nat) : ct_buf_t :=
  { base := mem, head := 0, tail := 0, size := len }

/-- Modelled from the spec: `ct_buf_set` (declared in `buffer.h` only) wraps a
region that already holds `len` valid bytes: `head = 0`, `tail = size = len`. -/
def ct_buf_set (mem : List Nat) (len : Nat) : ct_buf_t :=
  { base := mem, head := 0, tail := len, size := len }

/-- Modelled from the spec: `ct_buf_clear` (declared in `buffer.h` only) resets
`head = tail = 0`; storage and capacity are left alone. -/
def ct_buf_clear (bp : ct_buf_t) : ct_buf_t :=
  { bp with head := 0, tail := 0 }

/-- Modelled from the spec: `ct_buf_avail` (declared in `buffer.h` only) is
the number of occupied bytes, `tail - head`. -/
def ct_buf_avail (bp : ct_buf_t) : Nat := bp.tail - bp.head

/-- Modelled from the spec: `ct_buf_tailroom` (declared in `buffer.h` only) is
`size - tail`. -/
def ct_buf_tailroom (bp : ct_buf_t) : Nat := bp.size - bp.tail

/-- Modelled from the spec: `ct_buf_put` (declared in `buffer.h` only) fails,
leaving the buffer as it was, if `n` exceeds the tailroom; otherwise it copies
`n` bytes of `data` to `tail` and advances `tail` by `n`.  `none` stands for the
negative return value. -/
def ct_buf_put (bp : ct_buf_t) (data : List Nat) (n : Nat) : Option ct_buf_t :=
  if n > ct_buf_tailroom bp then none
  else some { bp with base := mem_write bp.base bp.tail (data.take n), tail := bp.tail + n }

/-- Modelled from the spec: `ct_buf_get` (declared in `buffer.h` only) fails,
leaving the buffer as it was, if `n` exceeds the occupied bytes; otherwise it
hands out the `n` bytes at `head` and advances `head` by `n`.  `none` stands for
the negative return value. -/
def ct_buf_get (bp : ct_buf_t) (n : Nat) : Option (List Nat × ct_buf_t) :=
  if n > ct_buf_avail bp then none
  else some ((bp.base.drop bp.head).take n, { bp with head := bp.head + n })

/-- Modelled from the spec: `ct_buf_compact` (declared in `buffer.h` only)
moves the occupied bytes down to offset 0. -/
def ct_buf_compact (bp : ct_buf_t) : ct_buf_t :=
  { bp with
    base := mem_write bp.base 0 ((bp.base.drop bp.head).take (ct_buf_avail bp)),
    head := 0,
    tail := ct_buf_avail bp }

/-! ## External collaborators -/

/-- The header fields of a parsed APDU that `ctapi.c` reads. -/
structure ifd_iso_apdu_t where
  cla : Nat
  ins : Nat
  p1 : Nat
  p2 : Nat
  le : Nat
deriving Repr, DecidableEq

/-- A call that leaves `ctapi.c`. -/
inductive Call where
  | apdu_parse : Call
  | card_reset (slot : Int) : Call
  | card_status (slot : Nat) : Call
  | card_command (slot : Nat) (cmd : List Nat) (lc : Nat) (lr : Nat) : Call
deriving Repr, DecidableEq

/-- The two ways a run of the model can leave the defined behaviour of C or
the fuel of the model. -/
inductive Fault where
  | out_of_fuel : Fault
  | out_of_bounds : Fault
deriving Repr, DecidableEq

/-- The state of the outside world: the driver state and the log of calls made
so far, oldest first. -/
structure World (σ : Type) where
  drv : σ
  calls : List Call
deriving Repr, DecidableEq

/-- A terminal handle: its slot count and the driver operations, each an
arbitrary function of the driver state.  `card_reset` returns the return code,
the contents of the ATR array after the call, and the new state;
`card_status` the return code, the status flags and the new state;
`card_command` the return code, the new contents of the response region and the
new state. -/
structure ifd_reader_t (σ : Type) where
  nslots : Nat
  card_reset : σ → Int → Nat → Int × List Nat × σ
  card_status : σ → Nat → Int × Nat × σ
  card_command : σ → Nat → List Nat → Nat → List Nat → Nat → Int × List Nat × σ

/-- Call of the driver reset for a slot, with the capacity of the ATR array. -/
def ifd_card_reset {σ : Type} (reader : ifd_reader_t σ) (slot : Int) (size : Nat)
    (w : World σ) : Int × List Nat × World σ :=
  let r := reader.card_reset w.drv slot size
  (r.1, r.2.1, { drv := r.2.2, calls := w.calls ++ [Call.card_reset slot] })

/-- Call of the driver status query for a slot. -/
def ifd_card_status {σ : Type} (reader : ifd_reader_t σ) (slot : Nat)
    (w : World σ) : Int × Nat × World σ :=
  let r := reader.card_status w.drv slot
  (r.1, r.2.1, { drv := r.2.2, calls := w.calls ++ [Call.card_status slot] })

/-- Call of the driver card command for a slot. -/
def ifd_card_command {σ : Type} (reader : ifd_reader_t σ) (slot : Nat)
    (cmd : List Nat) (lc : Nat) (rsp : List Nat) (lr : Nat)
    (w : World σ) : Int × List Nat × World σ :=
  let r := reader.card_command w.drv slot cmd lc rsp lr
  (r.1, r.2.1, { drv := r.2.2, calls := w.calls ++ [Call.card_command slot cmd lc lr] })

/-! ## Status words -/

/-- The function `ifd_ctapi_put_sw`: append the two bytes of `sw`; the result
is 2, or `ERR_INVALID` with the buffer untouched. -/
def ifd_ctapi_put_sw (K : Consts) (bp : ct_buf_t) (sw : Nat) : Int × ct_buf_t :=
  match ct_buf_put bp [(sw >>> 8) % 256, sw &&& 0xff] 2 with
  | none => (K.ERR_INVALID, bp)
  | some bp1 => (2, bp1)

/-- The function `ifd_ctapi_error`: clear the buffer, then put the status
word. -/
def ifd_ctapi_error (K : Consts) (bp : ct_buf_t) (sw : Nat) : Int × ct_buf_t :=
  ifd_ctapi_put_sw K (ct_buf_clear bp) sw

/-! ## Handlers -/

/-- What a handler hands back: its return code, the response buffer and the
world. -/
structure Handled (σ : Type) where
  rc : Int
  rbuf : ct_buf_t
  w : World σ
deriving Repr, DecidableEq

/-- The tail of `ifd_ctapi_reset` (the statements after the second `switch`):
put `atrlen` bytes of the ATR array, then the status word 0x9000; if either
put fails, answer bad-length. -/
def ifd_ctapi_reset_send {σ : Type} (K : Consts) (rbuf : ct_buf_t) (atr : List Nat)
    (atrlen : Nat) (w : World σ) : Except Fault (Handled σ) :=
  if atrlen ≤ ct_buf_tailroom rbuf ∧ atr.length < atrlen then
    .error Fault.out_of_bounds
  else
    match ct_buf_put rbuf atr atrlen with
    | none =>
      let e := ifd_ctapi_error K rbuf K.CTBCS_SW_BAD_LENGTH
      .ok { rc := e.1, rbuf := e.2, w := w }
    | some rbuf1 =>
      let s := ifd_ctapi_put_sw K rbuf1 0x9000
      if s.1 < 0 then
        let e := ifd_ctapi_error K s.2 K.CTBCS_SW_BAD_LENGTH
        .ok { rc := e.1, rbuf := e.2, w := w }
      else
        .ok { rc := 0, rbuf := s.2, w := w }

/-- The function `ifd_ctapi_reset`.  `atrlen` starts at 0 and keeps that value
when no arm of the second `switch` is taken. -/
def ifd_ctapi_reset {σ : Type} (K : Consts) (reader : ifd_reader_t σ)
    (iso : ifd_iso_apdu_t) (rbuf : ct_buf_t) (_timeout : Nat)
    (_message : Option (List Nat)) (w : World σ) : Except Fault (Handled σ) :=
  let unit := iso.p1
  if unit = K.CTBCS_UNIT_INTERFACE1 ∨ unit = K.CTBCS_UNIT_INTERFACE2 then
    let r := ifd_card_reset reader ((unit : Int) - (K.CTBCS_UNIT_INTERFACE1 : Int)) 64 w
    if r.1 < 0 then
      .ok { rc := K.ERR_TRANS, rbuf := rbuf, w := r.2.2 }
    else if (iso.p2 &&& 0xF) = K.CTBCS_P2_RESET_NO_RESP then
      ifd_ctapi_reset_send K rbuf r.2.1 0 r.2.2
    else if (iso.p2 &&& 0xF) = K.CTBCS_P2_RESET_GET_ATR then
      ifd_ctapi_reset_send K rbuf r.2.1 r.1.toNat r.2.2
    else if (iso.p2 &&& 0xF) = K.CTBCS_P2_RESET_GET_HIST then
      let e := ifd_ctapi_error K rbuf K.CTBCS_SW_BAD_PARAMS
      .ok { rc := e.1, rbuf := e.2, w := r.2.2 }
    else
      ifd_ctapi_reset_send K rbuf r.2.1 0 r.2.2
  else
    let e := ifd_ctapi_error K rbuf K.CTBCS_SW_BAD_PARAMS
    .ok { rc := e.1, rbuf := e.2, w := w }

/-- The `for` loop of `ifd_ctapi_status`, with `k` iterations to go from slot
`n` on.  The flag is `false` when the loop left through `goto bad_length`. -/
def ifd_ctapi_status_loop {σ : Type} (K : Consts) (reader : ifd_reader_t σ) :
    Nat → Nat → ct_buf_t → World σ → Bool × ct_buf_t × World σ
  | 0, _, rbuf, w => (true, rbuf, w)
  | k + 1, n, rbuf, w =>
    let r := ifd_card_status reader n w
    let status : Nat := if r.1 < 0 then 0 else r.2.1
    let c : Nat :=
      (if (status &&& K.IFD_CARD_PRESENT) ≠ 0 then K.CTBCS_DATA_STATUS_CARD_CONNECT
       else K.CTBCS_DATA_STATUS_NOCARD) % 256
    match ct_buf_put rbuf [c] 1 with
    | none => (false, rbuf, r.2.2)
    | some rbuf1 => ifd_ctapi_status_loop K reader k (n + 1) rbuf1 r.2.2

/-- The function `ifd_ctapi_status`. -/
def ifd_ctapi_status {σ : Type} (K : Consts) (reader : ifd_reader_t σ)
    (_iso : ifd_iso_apdu_t) (rbuf : ct_buf_t) (w : World σ) : Handled σ :=
  let l := ifd_ctapi_status_loop K reader reader.nslots 0 rbuf w
  if l.1 then
    let s := ifd_ctapi_put_sw K l.2.1 0x9000
    if s.1 < 0 then
      let e := ifd_ctapi_error K s.2 K.CTBCS_SW_BAD_LENGTH
      { rc := e.1, rbuf := e.2, w := l.2.2 }
    else
      { rc := 0, rbuf := s.2, w := l.2.2 }
  else
    let e := ifd_ctapi_error K l.2.1 K.CTBCS_SW_BAD_LENGTH
    { rc := e.1, rbuf := e.2, w := l.2.2 }

/-- How the TLV walk of `ifd_ctapi_request_icc` ends: the view buffer is
exhausted (with the message array and the timeout as they then are), or the
walk jumped to `bad_length`. -/
inductive Walk where
  | done (sbuf : ct_buf_t) (msgbuf : List Nat) (timeout : Nat) : Walk
  | bad_length (sbuf : ct_buf_t) (msgbuf : List Nat) (timeout : Nat) : Walk
deriving Repr, DecidableEq

/-- The `while` loop of `ifd_ctapi_request_icc`, with fuel. -/
def tlv_walk : Nat → ct_buf_t → List Nat → Nat → Except Fault Walk
  | fuel, sbuf, msgbuf, timeout =>
    if ct_buf_avail sbuf = 0 then .ok (Walk.done sbuf msgbuf timeout)
    else
      match fuel with
      | 0 => .error Fault.out_of_fuel
      | fuel1 + 1 =>
        match ct_buf_get sbuf 1 with
        | none => .ok (Walk.bad_length sbuf msgbuf timeout)
        | some (t, sbuf1) =>
          match ct_buf_get sbuf1 1 with
          | none => .ok (Walk.bad_length sbuf1 msgbuf timeout)
          | some (l, sbuf2) =>
            let type := t.headD 0 % 256
            let len := l.headD 0 % 256
            if ct_buf_avail sbuf2 < len then
              .ok (Walk.bad_length sbuf2 msgbuf timeout)
            else if type = 0x50 then
              if msgbuf.length < len + 1 then .error Fault.out_of_bounds
              else
                match ct_buf_get sbuf2 len with
                | none => tlv_walk fuel1 sbuf2 (msgbuf.set len 0) timeout
                | some (v, sbuf3) =>
                  tlv_walk fuel1 sbuf3 ((mem_write msgbuf 0 v).set len 0) timeout
            else if type = 0x80 then
              if len ≠ 1 then .ok (Walk.bad_length sbuf2 msgbuf timeout)
              else
                match ct_buf_get sbuf2 1 with
                | none => tlv_walk fuel1 sbuf2 msgbuf timeout
                | some (v, sbuf3) => tlv_walk fuel1 sbuf3 msgbuf (v.headD 0 % 256)
            else
              match ct_buf_get sbuf2 len with
              | none => tlv_walk fuel1 sbuf2 msgbuf timeout
              | some (_, sbuf3) => tlv_walk fuel1 sbuf3 msgbuf timeout

/-- The function `ifd_ctapi_request_icc`.  The `case 0x0f` arm has no `break`
and runs on into `default`. -/
def ifd_ctapi_request_icc {σ : Type} (K : Consts) (reader : ifd_reader_t σ)
    (iso : ifd_iso_apdu_t) (sbuf : ct_buf_t) (rbuf : ct_buf_t) (w : World σ) :
    Except Fault (Handled σ) :=
  let msgbuf0 : List Nat := List.replicate 256 0
  if iso.p2 >>> 4 = 0x00 then
    match tlv_walk (ct_buf_avail sbuf) sbuf (msgbuf0.set 0 0) 0 with
    | .error f => .error f
    | .ok (Walk.bad_length _ _ _) =>
      let e := ifd_ctapi_error K rbuf K.CTBCS_SW_BAD_LENGTH
      .ok { rc := e.1, rbuf := e.2, w := w }
    | .ok (Walk.done _ msgbuf timeout) =>
      ifd_ctapi_reset K reader iso rbuf timeout (some msgbuf) w
  else if iso.p2 >>> 4 = 0x0f then
    let e := ifd_ctapi_error K rbuf K.CTBCS_SW_BAD_PARAMS
    .ok { rc := e.1, rbuf := e.2, w := w }
  else
    let e := ifd_ctapi_error K rbuf K.CTBCS_SW_BAD_PARAMS
    .ok { rc := e.1, rbuf := e.2, w := w }

/-! ## Dispatcher -/

/-- The `switch (iso.ins)` of `ifd_ctapi_control`: the handler chosen by the
instruction byte, and what it hands back. -/
def ifd_ctapi_switch {σ : Type} (K : Consts) (reader : ifd_reader_t σ)
    (iso : ifd_iso_apdu_t) (sbuf : ct_buf_t) (rbuf : ct_buf_t) (w : World σ) :
    Except Fault (Handled σ) :=
  if iso.ins = K.CTBCS_INS_RESET then
    ifd_ctapi_reset K reader iso rbuf 0 none w
  else if iso.ins = K.CTBCS_INS_REQUEST_ICC then
    ifd_ctapi_request_icc K reader iso sbuf rbuf w
  else if iso.ins = K.CTBCS_INS_STATUS then
    .ok (ifd_ctapi_status K reader iso rbuf w)
  else
    let e := ifd_ctapi_error K rbuf K.CTBCS_SW_BAD_INS
    .ok { rc := e.1, rbuf := e.2, w := w }

/-- What `ifd_ctapi_control` leaves behind: its return value, the contents of
the response region, and the world. -/
structure Outcome (σ : Type) where
  rc : Int
  rsp : List Nat
  w : World σ
deriving Repr, DecidableEq

/-- The response proper: the first `rc` bytes of the response region. -/
def Outcome.response {σ : Type} (o : Outcome σ) : List Nat :=
  o.rsp.take o.rc.toNat

/-- The function `ifd_ctapi_control`.  `parse` is the external
`ifd_iso_apdu_parse`; `none` stands for its negative return value. -/
def ifd_ctapi_control {σ : Type} (K : Consts)
    (parse : List Nat → Nat → Option ifd_iso_apdu_t) (reader : ifd_reader_t σ)
    (cmd : List Nat) (cmd_len : Nat) (rsp : List Nat) (rsp_len : Nat)
    (w : World σ) : Except Fault (Outcome σ) :=
  if rsp_len < 2 then
    .ok { rc := K.ERR_INVALID, rsp := rsp, w := w }
  else
    let w1 : World σ := { w with calls := w.calls ++ [Call.apdu_parse] }
    match parse cmd cmd_len with
    | none => .ok { rc := K.ERR_INVALID, rsp := rsp, w := w1 }
    | some iso =>
      let sbuf := ct_buf_set cmd cmd_len
      let rbuf := ct_buf_init rsp rsp_len
      if iso.cla ≠ K.CTBCS_CLA then
        let e := ifd_ctapi_error K rbuf K.CTBCS_SW_BAD_CLASS
        .ok { rc := (ct_buf_avail e.2 : Nat), rsp := e.2.base, w := w1 }
      else
        match ifd_ctapi_switch K reader iso sbuf rbuf w1 with
        | .error f => .error f
        | .ok h =>
          if h.rc < 0 then
            .ok { rc := h.rc, rsp := h.rbuf.base, w := h.w }
          else
            let rbuf1 :=
              if ct_buf_avail h.rbuf > iso.le + 2 then
                (ifd_ctapi_error K h.rbuf K.CTBCS_SW_BAD_LENGTH).2
              else h.rbuf
            .ok { rc := (ct_buf_avail rbuf1 : Nat), rsp := rbuf1.base, w := h.w }

/-- What `CT_data` leaves behind: its return value, the response-length
variable, the contents of the response region, and the world. -/
structure DataOutcome (σ : Type) where
  ret : Int
  lr : Nat
  rsp : List Nat
  w : World σ
deriving Repr, DecidableEq

/-- The function `CT_data`.  `ifd_reader_by_index` is the external terminal
lookup; `dad` and `sad` are `none` for null pointers. -/
def CT_data {σ : Type} (K : Consts)
    (parse : List Nat → Nat → Option ifd_iso_apdu_t)
    (ifd_reader_by_index : Nat → Option (ifd_reader_t σ))
    (ctn : Nat) (dad : Option Nat) (sad : Option Nat) (lc : Nat) (cmd : List Nat)
    (lr : Nat) (rsp : List Nat) (w : World σ) : Except Fault (DataOutcome σ) :=
  match ifd_reader_by_index ctn, sad, dad with
  | some reader, some _, some d =>
    let fin (r : Int × List Nat × World σ) : DataOutcome σ :=
      if r.1 < 0 then { ret := K.ERR_INVALID, lr := lr, rsp := r.2.1, w := r.2.2 }
      else { ret := K.OK, lr := r.1.toNat % 65536, rsp := r.2.1, w := r.2.2 }
    if d = 0 then
      .ok (fin (ifd_card_command reader 0 cmd lc rsp lr w))
    else if d = 1 then
      match ifd_ctapi_control K parse reader cmd lc rsp lr w with
      | .error f => .error f
      | .ok o => .ok (fin (o.rc, o.rsp, o.w))
    else if d = 2 then
      .ok { ret := K.ERR_INVALID, lr := lr, rsp := rsp, w := w }
    else if d = 3 then
      .ok (fin (ifd_card_command reader 1 cmd lc rsp lr w))
    else
      .ok { ret := K.ERR_INVALID, lr := lr, rsp := rsp, w := w }
  | _, _, _ => .ok { ret := K.ERR_INVALID, lr := lr, rsp := rsp, w := w }

/-! ## Specification-side definitions -/

/-- The status queries of the `k` slots `n`, `n + 1`, ..., asked in this order,
each one seeing the driver state its predecessor left: the return code and the
flags of every query. -/
def slot_queries {σ : Type} (reader : ifd_reader_t σ) : Nat → Nat → σ → List (Int × Nat)
  | 0, _, _ => []
  | k + 1, n, s =>
    ((reader.card_status s n).1, (reader.card_status s n).2.1)
      :: slot_queries reader k (n + 1) (reader.card_status s n).2.2

/-- The driver state after the `k` status queries of `slot_queries`. -/
def slot_queries_state {σ : Type} (reader : ifd_reader_t σ) : Nat → Nat → σ → σ
  | 0, _, s => s
  | k + 1, n, s => slot_queries_state reader k (n + 1) (reader.card_status s n).2.2

/-- The status byte of a slot: card-present exactly when the query succeeded
and reported the present flag, card-absent otherwise. -/
def presence_byte (K : Consts) (q : Int × Nat) : Nat :=
  if 0 ≤ q.1 ∧ (q.2 &&& K.IFD_CARD_PRESENT) ≠ 0 then K.CTBCS_DATA_STATUS_CARD_CONNECT
  else K.CTBCS_DATA_STATUS_NOCARD

/-- The occupied bytes of a buffer: the `tail - head` bytes from `head` on. -/
def ct_buf_data (bp : ct_buf_t) : List Nat :=
  (bp.base.drop bp.head).take (ct_buf_avail bp)

/-- A write buffer over a response region of capacity `cap`: nothing consumed,
the write cursor inside the capacity and inside the storage. -/
def WBuf (cap : Nat) (bp : ct_buf_t) : Prop :=
  bp.head = 0 ∧ bp.size = cap ∧ bp.tail ≤ cap ∧ bp.tail ≤ bp.base.length

/-- A finished response: a write buffer whose occupied bytes end in the
encoding of one of the five status words. -/
def Resp (K : Consts) (cap : Nat) (bp : ct_buf_t) : Prop :=
  WBuf cap bp ∧ ∃ sw ∈ K.status_words, ∃ pre, bp.base.take bp.tail = pre ++ be16 sw

/-- The two ways a handler ends: the reset handler's transport error, with the
response buffer as it was, or a non-negative code with a finished response. -/
def HandlerPost {σ : Type} (K : Consts) (cap : Nat) (rbuf : ct_buf_t) (h : Handled σ) : Prop :=
  (h.rc = K.ERR_TRANS ∧ h.rbuf = rbuf) ∨ (0 ≤ h.rc ∧ Resp K cap h.rbuf)

/-- The part of a write buffer no handler touches: nothing consumed, capacity
`cap`. -/
def Frame (cap : Nat) (bp : ct_buf_t) : Prop := bp.head = 0 ∧ bp.size = cap

/-- The contract of the driver reset towards `ctapi.c`: a successful reset
reports no more ATR bytes than the ATR array holds. -/
def DriverContract {σ : Type} (reader : ifd_reader_t σ) : Prop :=
  ∀ (s : σ) (slot : Int),
    (reader.card_reset s slot 64).1 ≤ ((reader.card_reset s slot 64).2.1.length : Int)

/-- A view buffer whose cursors lie inside its storage: the region really
holds the bytes between `head` and `tail`. -/
def VBuf (bp : ct_buf_t) : Prop := bp.head ≤ bp.tail ∧ bp.tail ≤ bp.base.length

/-- The bytes left to walk contain an entry the TLV walk cannot accept, met
after entries it can: a tag with no length byte after it, a declared length
that exceeds the bytes remaining after the length byte, or tag 0x80 with a
length other than 1.  Tag and length are read as `unsigned char`. -/
inductive MeetsMalformed : List Nat → Prop where
  | truncated (t : Nat) : MeetsMalformed [t]
  | too_long (t l : Nat) (rest : List Nat) :
      rest.length < l % 256 → MeetsMalformed (t :: l :: rest)
  | bad_timeout (t l : Nat) (rest : List Nat) :
      t % 256 = 0x80 → l % 256 ≠ 1 → MeetsMalformed (t :: l :: rest)
  | later (t l : Nat) (rest : List Nat) :
      l % 256 ≤ rest.length → ¬ (t % 256 = 0x80 ∧ l % 256 ≠ 1) →
      MeetsMalformed (rest.drop (l % 256)) → MeetsMalformed (t :: l :: rest)

/-- The message array as the walk left it. -/
def Walk.msgbuf : Walk → List Nat
  | Walk.done _ m _ => m
  | Walk.bad_length _ m _ => m

/-- A call of one of the four mutating buffer operations. -/
inductive BufOp where
  | put (data : List Nat) (n : Nat) : BufOp
  | get (n : Nat) : BufOp
  | clear : BufOp
  | compact : BufOp
deriving Repr, DecidableEq

/-- The buffer after one operation.  A `put` or `get` that fails leaves the
buffer as it was. -/
def buf_apply (bp : ct_buf_t) : BufOp → ct_buf_t
  | BufOp.put data n =>
    match ct_buf_put bp data n with
    | none => bp
    | some bp1 => bp1
  | BufOp.get n =>
    match ct_buf_get bp n with
    | none => bp
    | some (_, bp1) => bp1
  | BufOp.clear => ct_buf_clear bp
  | BufOp.compact => ct_buf_compact bp

/-- The buffer after a sequence of operations, first to last. -/
def buf_run (bp : ct_buf_t) (ops : List BufOp) : ct_buf_t :=
  ops.foldl buf_apply bp

/-- The cursor invariant of the bounded buffer: `0 ≤ head ≤ tail ≤ size`. -/
def BufInv (bp : ct_buf_t) : Prop := 0 ≤ bp.head ∧ bp.head ≤ bp.tail ∧ bp.tail ≤ bp.size

/-- The return code of the operation `CT_data` routes a call to, after the
routing table of the spec: the driver card command on slot 0 for destination 0
and on slot 1 for destination 3, with command bytes, length, response region
and capacity as given, and the pseudo-APDU dispatcher for destination 1.
There is none when the terminal index does not resolve, a selector is null,
or the destination is another one. -/
def routed_rc {σ : Type} (K : Consts)
    (parse : List Nat → Nat → Option ifd_iso_apdu_t)
    (ifd_reader_by_index : Nat → Option (ifd_reader_t σ))
    (ctn : Nat) (dad : Option Nat) (sad : Option Nat) (lc : Nat) (cmd : List Nat)
    (lr : Nat) (rsp : List Nat) (w : World σ) : Option Int :=
  match ifd_reader_by_index ctn, sad, dad with
  | some reader, some _, some d =>
    if d = 0 then some (reader.card_command w.drv 0 cmd lc rsp lr).1
    else if d = 3 then some (reader.card_command w.drv 1 cmd lc rsp lr).1
    else if d = 1 then
      match ifd_ctapi_control K parse reader cmd lc rsp lr w with
      | .ok o => some o.rc
      | .error _ => none
    else none
  | _, _, _ => none

/-! ## Instances for the examples -/

/-- Modelled from the spec: `ifd_iso_apdu_parse` is outside `ctapi.c`.  This
instance of the parser parameter follows the wire layout class, instruction,
parameter 1, parameter 2, optional length byte with that many data bytes,
optional expected-length byte (0 standing for 256), and rejects everything
else.  It serves in the examples only. -/
def apdu_parse_short (cmd : List Nat) (len : Nat) : Option ifd_iso_apdu_t :=
  let b := cmd.take len
  if b.length ≠ len ∨ len < 4 then none
  else
    let hdr (le : Nat) : ifd_iso_apdu_t :=
      { cla := b.getD 0 0, ins := b.getD 1 0, p1 := b.getD 2 0, p2 := b.getD 3 0, le := le }
    let expected (x : Nat) : Nat := if x = 0 then 256 else x
    if len = 4 then some (hdr 0)
    else if len = 5 then some (hdr (expected (b.getD 4 0)))
    else if len = 5 + b.getD 4 0 then some (hdr 0)
    else if len = 6 + b.getD 4 0 then some (hdr (expected (b.getD (len - 1) 0)))
    else none

/-- A two-slot terminal for the examples.  The driver state counts the resets
done.  Slot 0 holds a card: its status query reports the present flag and its
reset yields a four-byte ATR.  Slot 1 fails every operation. -/
def example_reader : ifd_reader_t Nat where
  nslots := 2
  card_reset := fun s slot _ =>
    if slot = 0 then (4, [0x3b, 0x65, 0x00, 0x00] ++ List.replicate 60 0, s + 1)
    else (-1, List.replicate 64 0, s)
  card_status := fun s slot => if slot = 0 then (0, 1, s) else (-1, 0, s)
  card_command := fun s _ _ _ rsp _ => (-1, rsp, s)

/-- The world the examples start in: no reset done, no call made. -/
def example_world : World Nat := { drv := 0, calls := [] }

/-- The terminal lookup of the examples: index 0 is the example terminal, no
other index resolves. -/
def example_lookup : Nat → Option (ifd_reader_t Nat) :=
  fun n => if n = 0 then some example_reader else none

/-! ## Buffer lemmas -/

theorem mem_write_take (mem data : List Nat) (off : Nat) (h : off ≤ mem.length) :
    (mem_write mem off data).take (off + data.length) = mem.take off ++ data := by
  unfold mem_write
  rw [List.append_assoc, List.take_append_eq_append_take]
  have h1 : (mem.take off).length = off := by simp [h]
  rw [List.take_of_length_le (by omega), h1]
  simp

theorem mem_write_length (mem data : List Nat) (off : Nat) (h : off ≤ mem.length) :
    off + data.length ≤ (mem_write mem off data).length := by
  unfold mem_write
  simp
  omega

theorem put_sw_bytes (sw : Nat) : [(sw >>> 8) % 256, sw &&& 0xff] = be16 sw := by
  have h1 : sw >>> 8 = sw / 256 := by
    rw [Nat.shiftRight_eq_div_pow]
  have h2 : sw &&& 0xff = sw % 256 := Nat.and_pow_two_sub_one_eq_mod sw 8
  simp [be16, h1, h2]

theorem be16_decode (sw : Nat) (h : sw < 65536) :
    be16 sw = [sw / 256, sw % 256] ∧ sw / 256 < 256 ∧ sw / 256 * 256 + sw % 256 = sw := by
  have h1 : sw / 256 < 256 := by omega
  refine ⟨?_, h1, by omega⟩
  simp [be16, Nat.mod_eq_of_lt h1]

theorem ct_buf_put_some (bp : ct_buf_t) (data : List Nat) (n : Nat)
    (h : bp.tail + n ≤ bp.size) :
    ct_buf_put bp data n
      = some { bp with base := mem_write bp.base bp.tail (data.take n), tail := bp.tail + n } := by
  unfold ct_buf_put ct_buf_tailroom
  rw [if_neg (by omega)]

theorem ct_buf_put_none (bp : ct_buf_t) (data : List Nat) (n : Nat)
    (h : bp.size < bp.tail + n) (ht : bp.tail ≤ bp.size) : ct_buf_put bp data n = none := by
  unfold ct_buf_put ct_buf_tailroom
  rw [if_pos (by omega)]

theorem WBuf_init (rsp : List Nat) (cap : Nat) : WBuf cap (ct_buf_init rsp cap) := by
  simp [WBuf, ct_buf_init]

theorem WBuf_put {cap : Nat} {bp bp1 : ct_buf_t} {data : List Nat} {n : Nat}
    (hb : WBuf cap bp) (hn : n ≤ data.length) (hp : ct_buf_put bp data n = some bp1) :
    WBuf cap bp1 ∧ bp1.tail = bp.tail + n
      ∧ bp1.base.take bp1.tail = bp.base.take bp.tail ++ data.take n := by
  obtain ⟨h0, hs, ht, hl⟩ := hb
  unfold ct_buf_put ct_buf_tailroom at hp
  split at hp
  · exact absurd hp (by simp)
  · rename_i hroom
    have hlen : (data.take n).length = n := by simp [hn]
    have e : bp1 = { bp with base := mem_write bp.base bp.tail (data.take n),
                             tail := bp.tail + n } := by
      simpa using hp.symm
    subst e
    have hw := mem_write_take bp.base (data.take n) bp.tail hl
    have hg := mem_write_length bp.base (data.take n) bp.tail hl
    rw [hlen] at hw hg
    refine ⟨⟨h0, hs, ?_, hg⟩, rfl, hw⟩
    show bp.tail + n ≤ cap
    omega

/-! ## Status-word lemmas -/

theorem put_sw_ok (K : Consts) {cap : Nat} {bp : ct_buf_t} (sw : Nat)
    (hb : WBuf cap bp) (hroom : bp.tail + 2 ≤ cap) :
    ∃ bp1, ifd_ctapi_put_sw K bp sw = (2, bp1) ∧ WBuf cap bp1 ∧ bp1.tail = bp.tail + 2
      ∧ bp1.base.take bp1.tail = bp.base.take bp.tail ++ be16 sw := by
  have hs : bp.size = cap := hb.2.1
  have hp := ct_buf_put_some bp [(sw >>> 8) % 256, sw &&& 0xff] 2 (by omega)
  obtain ⟨h1, h2, h3⟩ := WBuf_put hb (by simp) hp
  refine ⟨_, ?_, h1, h2, ?_⟩
  · unfold ifd_ctapi_put_sw
    rw [hp]
  · rw [h3, ← put_sw_bytes]
    simp

theorem put_sw_fail (K : Consts) {cap : Nat} {bp : ct_buf_t} (sw : Nat)
    (hb : WBuf cap bp) (hroom : cap < bp.tail + 2) :
    ifd_ctapi_put_sw K bp sw = (K.ERR_INVALID, bp) := by
  obtain ⟨_, hs, ht, _⟩ := hb
  unfold ifd_ctapi_put_sw
  rw [ct_buf_put_none bp _ 2 (by omega) (by omega)]

theorem error_eq (K : Consts) (bp : ct_buf_t) (sw : Nat) (h : 2 ≤ bp.size) :
    ifd_ctapi_error K bp sw
      = (2, { base := be16 sw ++ bp.base.drop 2, head := 0, tail := 2, size := bp.size }) := by
  unfold ifd_ctapi_error ifd_ctapi_put_sw
  rw [ct_buf_put_some _ _ 2 (by simpa [ct_buf_clear] using h)]
  simp [ct_buf_clear, mem_write, put_sw_bytes, be16]

theorem error_Resp (K : Consts) {cap : Nat} (bp : ct_buf_t) (sw : Nat)
    (hs : bp.size = cap) (h : 2 ≤ cap) (hsw : sw ∈ K.status_words) :
    (ifd_ctapi_error K bp sw).1 = 2 ∧ Resp K cap (ifd_ctapi_error K bp sw).2 := by
  rw [error_eq K bp sw (by omega)]
  refine ⟨rfl, ⟨rfl, hs, h, ?_⟩, sw, hsw, [], ?_⟩
  · simp [be16]
  · simp [be16]

theorem Resp_tail {K : Consts} {cap : Nat} {bp : ct_buf_t} (h : Resp K cap bp) :
    2 ≤ bp.tail := by
  obtain ⟨⟨_, _, _, hl⟩, sw, _, pre, hpre⟩ := h
  have := congrArg List.length hpre
  simp [be16] at this
  omega

/-! ## What every handler hands back -/

theorem sw_ok_mem (K : Consts) : 0x9000 ∈ K.status_words := by
  simp [Consts.status_words]

theorem sw_bad_class_mem (K : Consts) : K.CTBCS_SW_BAD_CLASS ∈ K.status_words := by
  simp [Consts.status_words]

theorem sw_bad_ins_mem (K : Consts) : K.CTBCS_SW_BAD_INS ∈ K.status_words := by
  simp [Consts.status_words]

theorem sw_bad_params_mem (K : Consts) : K.CTBCS_SW_BAD_PARAMS ∈ K.status_words := by
  simp [Consts.status_words]

theorem sw_bad_length_mem (K : Consts) : K.CTBCS_SW_BAD_LENGTH ∈ K.status_words := by
  simp [Consts.status_words]

theorem error_post {σ : Type} (K : Consts) {cap : Nat} (rbuf0 bp : ct_buf_t) (sw : Nat)
    (w : World σ) (hs : bp.size = cap) (h : 2 ≤ cap) (hsw : sw ∈ K.status_words) :
    HandlerPost K cap rbuf0
      { rc := (ifd_ctapi_error K bp sw).1, rbuf := (ifd_ctapi_error K bp sw).2, w := w } := by
  obtain ⟨h1, h2⟩ := error_Resp K bp sw hs h hsw
  right
  exact ⟨by simp [h1], h2⟩

theorem ct_buf_put_room {bp bp1 : ct_buf_t} {data : List Nat} {n : Nat}
    (hp : ct_buf_put bp data n = some bp1) : n ≤ ct_buf_tailroom bp := by
  unfold ct_buf_put at hp
  split at hp
  · exact absurd hp (by simp)
  · omega

theorem put_sw_then_post {σ : Type} (K : Consts) {cap : Nat} (rbuf0 bp : ct_buf_t)
    (w : World σ) (hb : WBuf cap bp) (hc : 2 ≤ cap) (hE : K.ERR_INVALID < 0) :
    HandlerPost K cap rbuf0
      (if (ifd_ctapi_put_sw K bp 0x9000).1 < 0 then
        { rc := (ifd_ctapi_error K (ifd_ctapi_put_sw K bp 0x9000).2 K.CTBCS_SW_BAD_LENGTH).1,
          rbuf := (ifd_ctapi_error K (ifd_ctapi_put_sw K bp 0x9000).2 K.CTBCS_SW_BAD_LENGTH).2,
          w := w }
       else { rc := 0, rbuf := (ifd_ctapi_put_sw K bp 0x9000).2, w := w }) := by
  by_cases hroom : bp.tail + 2 ≤ cap
  · obtain ⟨bp1, e, hb1, _, hd⟩ := put_sw_ok K 0x9000 hb hroom
    rw [e]
    simp only [show ¬ ((2 : Int) < 0) by decide, if_false]
    right
    exact ⟨le_refl _, hb1, 0x9000, sw_ok_mem K, _, hd⟩
  · rw [put_sw_fail K 0x9000 hb (by omega)]
    simp only [hE, if_true]
    exact error_post K rbuf0 bp _ w hb.2.1 hc (sw_bad_length_mem K)

theorem reset_send_post {σ : Type} (K : Consts) {cap : Nat} {rbuf : ct_buf_t}
    (atr : List Nat) (atrlen : Nat) (w : World σ) {h : Handled σ}
    (hb : WBuf cap rbuf) (hc : 2 ≤ cap) (hE : K.ERR_INVALID < 0)
    (hr : ifd_ctapi_reset_send K rbuf atr atrlen w = .ok h) :
    HandlerPost K cap rbuf h := by
  unfold ifd_ctapi_reset_send at hr
  split at hr
  · exact absurd hr (by simp)
  · rename_i hg
    split at hr
    · have e : h = _ := (Except.ok.inj hr).symm
      rw [e]
      exact error_post K rbuf rbuf _ w hb.2.1 hc (sw_bad_length_mem K)
    · rename_i rbuf1 hp
      have hroom := ct_buf_put_room hp
      have hlen : atrlen ≤ atr.length := by
        by_contra hcon
        exact hg ⟨hroom, by omega⟩
      obtain ⟨hb1, _, _⟩ := WBuf_put hb hlen hp
      have hpost := put_sw_then_post K rbuf rbuf1 w hb1 hc hE
      dsimp only at hr
      by_cases hneg : (ifd_ctapi_put_sw K rbuf1 0x9000).1 < 0
      · rw [if_pos hneg] at hpost hr
        have e : h = _ := (Except.ok.inj hr).symm
        rw [e]
        exact hpost
      · rw [if_neg hneg] at hpost hr
        have e : h = _ := (Except.ok.inj hr).symm
        rw [e]
        exact hpost

theorem reset_post {σ : Type} (K : Consts) {cap : Nat} (reader : ifd_reader_t σ)
    (iso : ifd_iso_apdu_t) {rbuf : ct_buf_t} (timeout : Nat) (message : Option (List Nat))
    (w : World σ) {h : Handled σ}
    (hb : WBuf cap rbuf) (hc : 2 ≤ cap) (hE : K.ERR_INVALID < 0)
    (hr : ifd_ctapi_reset K reader iso rbuf timeout message w = .ok h) :
    HandlerPost K cap rbuf h := by
  unfold ifd_ctapi_reset at hr
  dsimp only at hr
  split_ifs at hr
  · have e : h = _ := (Except.ok.inj hr).symm
    rw [e]
    exact Or.inl ⟨rfl, rfl⟩
  · exact reset_send_post K _ _ _ hb hc hE hr
  · exact reset_send_post K _ _ _ hb hc hE hr
  · have e : h = _ := (Except.ok.inj hr).symm
    rw [e]
    exact error_post K rbuf rbuf _ _ hb.2.1 hc (sw_bad_params_mem K)
  · exact reset_send_post K _ _ _ hb hc hE hr
  · have e : h = _ := (Except.ok.inj hr).symm
    rw [e]
    exact error_post K rbuf rbuf _ _ hb.2.1 hc (sw_bad_params_mem K)

theorem status_loop_WBuf {σ : Type} (K : Consts) {cap : Nat} (reader : ifd_reader_t σ) :
    ∀ (k n : Nat) (rbuf : ct_buf_t) (w : World σ), WBuf cap rbuf →
      WBuf cap (ifd_ctapi_status_loop K reader k n rbuf w).2.1 := by
  intro k
  induction k with
  | zero => intro n rbuf w hb; exact hb
  | succ k ih =>
    intro n rbuf w hb
    unfold ifd_ctapi_status_loop
    dsimp only
    split
    · exact hb
    · rename_i rbuf1 hp
      exact ih _ _ _ (WBuf_put hb (by simp) hp).1

theorem status_post {σ : Type} (K : Consts) {cap : Nat} (reader : ifd_reader_t σ)
    (iso : ifd_iso_apdu_t) {rbuf : ct_buf_t} (w : World σ)
    (hb : WBuf cap rbuf) (hc : 2 ≤ cap) (hE : K.ERR_INVALID < 0) :
    HandlerPost K cap rbuf (ifd_ctapi_status K reader iso rbuf w) := by
  have hl := status_loop_WBuf K reader reader.nslots 0 rbuf w hb
  unfold ifd_ctapi_status
  dsimp only
  split_ifs with h1 h2
  · have hpost := put_sw_then_post K rbuf _ (ifd_ctapi_status_loop K reader reader.nslots 0 rbuf w).2.2 hl hc hE
    rw [if_pos h2] at hpost
    exact hpost
  · have hpost := put_sw_then_post K rbuf _ (ifd_ctapi_status_loop K reader reader.nslots 0 rbuf w).2.2 hl hc hE
    rw [if_neg h2] at hpost
    exact hpost
  · exact error_post K rbuf _ _ _ hl.2.1 hc (sw_bad_length_mem K)

theorem request_icc_post {σ : Type} (K : Consts) {cap : Nat} (reader : ifd_reader_t σ)
    (iso : ifd_iso_apdu_t) (sbuf : ct_buf_t) {rbuf : ct_buf_t} (w : World σ) {h : Handled σ}
    (hb : WBuf cap rbuf) (hc : 2 ≤ cap) (hE : K.ERR_INVALID < 0)
    (hr : ifd_ctapi_request_icc K reader iso sbuf rbuf w = .ok h) :
    HandlerPost K cap rbuf h := by
  unfold ifd_ctapi_request_icc at hr
  dsimp only at hr
  split_ifs at hr
  · split at hr
    · exact absurd hr (by simp)
    · have e : h = _ := (Except.ok.inj hr).symm
      rw [e]
      exact error_post K rbuf rbuf _ _ hb.2.1 hc (sw_bad_length_mem K)
    · exact reset_post K reader iso _ _ w hb hc hE hr
  · have e : h = _ := (Except.ok.inj hr).symm
    rw [e]
    exact error_post K rbuf rbuf _ _ hb.2.1 hc (sw_bad_params_mem K)
  · have e : h = _ := (Except.ok.inj hr).symm
    rw [e]
    exact error_post K rbuf rbuf _ _ hb.2.1 hc (sw_bad_params_mem K)

theorem switch_post {σ : Type} (K : Consts) {cap : Nat} (reader : ifd_reader_t σ)
    (iso : ifd_iso_apdu_t) (sbuf : ct_buf_t) {rbuf : ct_buf_t} (w : World σ) {h : Handled σ}
    (hb : WBuf cap rbuf) (hc : 2 ≤ cap) (hE : K.ERR_INVALID < 0)
    (hr : ifd_ctapi_switch K reader iso sbuf rbuf w = .ok h) :
    HandlerPost K cap rbuf h := by
  unfold ifd_ctapi_switch at hr
  split_ifs at hr
  · exact reset_post K reader iso _ _ w hb hc hE hr
  · exact request_icc_post K reader iso sbuf w hb hc hE hr
  · have e : h = _ := (Except.ok.inj hr).symm
    rw [e]
    exact status_post K reader iso w hb hc hE
  · have e : h = _ := (Except.ok.inj hr).symm
    rw [e]
    exact error_post K rbuf rbuf _ _ hb.2.1 hc (sw_bad_ins_mem K)

theorem HandlerPost_WBuf {σ : Type} {K : Consts} {cap : Nat} {rbuf : ct_buf_t}
    {h : Handled σ} (hb : WBuf cap rbuf) (hp : HandlerPost K cap rbuf h) :
    WBuf cap h.rbuf := by
  rcases hp with ⟨_, e⟩ | ⟨_, hr⟩
  · rw [e]; exact hb
  · exact hr.1

theorem Resp_outcome {K : Consts} {cap : Nat} {bp : ct_buf_t} (h : Resp K cap bp) :
    2 ≤ ct_buf_avail bp ∧ ct_buf_avail bp ≤ cap
      ∧ (bp.base.take (ct_buf_avail bp)).length = ct_buf_avail bp
      ∧ ∃ sw ∈ K.status_words,
          (bp.base.take (ct_buf_avail bp)).drop (ct_buf_avail bp - 2) = be16 sw := by
  have h2 := Resp_tail h
  obtain ⟨⟨h0, _, ht, hl⟩, sw, hsw, pre, hpre⟩ := h
  have ha : ct_buf_avail bp = bp.tail := by simp [ct_buf_avail, h0]
  rw [ha]
  refine ⟨h2, ht, by simp [hl], sw, hsw, ?_⟩
  have hlen := congrArg List.length hpre
  simp [be16] at hlen
  have hpl : bp.tail - 2 = pre.length := by omega
  rw [hpre, hpl]
  simp

/-! ## Cursor frame: handlers never move `head` nor change `size` -/

theorem Frame_init (rsp : List Nat) (cap : Nat) : Frame cap (ct_buf_init rsp cap) :=
  ⟨rfl, rfl⟩

theorem Frame_put {cap : Nat} {bp bp1 : ct_buf_t} {data : List Nat} {n : Nat}
    (hf : Frame cap bp) (hp : ct_buf_put bp data n = some bp1) : Frame cap bp1 := by
  unfold ct_buf_put at hp
  split at hp
  · exact absurd hp (by simp)
  · have e : bp1 = _ := (Option.some.inj hp).symm
    rw [e]
    exact hf

theorem Frame_put_sw (K : Consts) {cap : Nat} {bp : ct_buf_t} (sw : Nat)
    (hf : Frame cap bp) : Frame cap (ifd_ctapi_put_sw K bp sw).2 := by
  unfold ifd_ctapi_put_sw
  split
  · exact hf
  · rename_i bp1 hp
    exact Frame_put hf hp

theorem Frame_error (K : Consts) {cap : Nat} {bp : ct_buf_t} (sw : Nat)
    (hs : bp.size = cap) : Frame cap (ifd_ctapi_error K bp sw).2 := by
  unfold ifd_ctapi_error
  exact Frame_put_sw K sw ⟨rfl, hs⟩

theorem Frame_reset_send {σ : Type} (K : Consts) {cap : Nat} {rbuf : ct_buf_t}
    (atr : List Nat) (atrlen : Nat) (w : World σ) {h : Handled σ} (hf : Frame cap rbuf)
    (hr : ifd_ctapi_reset_send K rbuf atr atrlen w = .ok h) : Frame cap h.rbuf := by
  unfold ifd_ctapi_reset_send at hr
  split at hr
  · exact absurd hr (by simp)
  · split at hr
    · have e : h = _ := (Except.ok.inj hr).symm
      rw [e]
      exact Frame_error K _ hf.2
    · rename_i rbuf1 hp
      have hf1 := Frame_put hf hp
      dsimp only at hr
      split_ifs at hr
      · have e : h = _ := (Except.ok.inj hr).symm
        rw [e]
        exact Frame_error K _ (Frame_put_sw K _ hf1).2
      · have e : h = _ := (Except.ok.inj hr).symm
        rw [e]
        exact Frame_put_sw K _ hf1

theorem Frame_reset {σ : Type} (K : Consts) {cap : Nat} (reader : ifd_reader_t σ)
    (iso : ifd_iso_apdu_t) {rbuf : ct_buf_t} (timeout : Nat) (message : Option (List Nat))
    (w : World σ) {h : Handled σ} (hf : Frame cap rbuf)
    (hr : ifd_ctapi_reset K reader iso rbuf timeout message w = .ok h) :
    Frame cap h.rbuf := by
  unfold ifd_ctapi_reset at hr
  dsimp only at hr
  split_ifs at hr
  · have e : h = _ := (Except.ok.inj hr).symm
    rw [e]
    exact hf
  · exact Frame_reset_send K _ _ _ hf hr
  · exact Frame_reset_send K _ _ _ hf hr
  · have e : h = _ := (Except.ok.inj hr).symm
    rw [e]
    exact Frame_error K _ hf.2
  · exact Frame_reset_send K _ _ _ hf hr
  · have e : h = _ := (Except.ok.inj hr).symm
    rw [e]
    exact Frame_error K _ hf.2

theorem Frame_status_loop {σ : Type} (K : Consts) {cap : Nat} (reader : ifd_reader_t σ) :
    ∀ (k n : Nat) (rbuf : ct_buf_t) (w : World σ), Frame cap rbuf →
      Frame cap (ifd_ctapi_status_loop K reader k n rbuf w).2.1 := by
  intro k
  induction k with
  | zero => intro n rbuf w hf; exact hf
  | succ k ih =>
    intro n rbuf w hf
    unfold ifd_ctapi_status_loop
    dsimp only
    split
    · exact hf
    · rename_i rbuf1 hp
      exact ih _ _ _ (Frame_put hf hp)

theorem Frame_status {σ : Type} (K : Consts) {cap : Nat} (reader : ifd_reader_t σ)
    (iso : ifd_iso_apdu_t) {rbuf : ct_buf_t} (w : World σ) (hf : Frame cap rbuf) :
    Frame cap (ifd_ctapi_status K reader iso rbuf w).rbuf := by
  have hl := Frame_status_loop K reader reader.nslots 0 rbuf w hf
  unfold ifd_ctapi_status
  dsimp only
  split_ifs
  · exact Frame_error K _ (Frame_put_sw K _ hl).2
  · exact Frame_put_sw K _ hl
  · exact Frame_error K _ hl.2

theorem Frame_request_icc {σ : Type} (K : Consts) {cap : Nat} (reader : ifd_reader_t σ)
    (iso : ifd_iso_apdu_t) (sbuf : ct_buf_t) {rbuf : ct_buf_t} (w : World σ) {h : Handled σ}
    (hf : Frame cap rbuf)
    (hr : ifd_ctapi_request_icc K reader iso sbuf rbuf w = .ok h) : Frame cap h.rbuf := by
  unfold ifd_ctapi_request_icc at hr
  dsimp only at hr
  split_ifs at hr
  · split at hr
    · exact absurd hr (by simp)
    · have e : h = _ := (Except.ok.inj hr).symm
      rw [e]
      exact Frame_error K _ hf.2
    · exact Frame_reset K reader iso _ _ w hf hr
  · have e : h = _ := (Except.ok.inj hr).symm
    rw [e]
    exact Frame_error K _ hf.2
  · have e : h = _ := (Except.ok.inj hr).symm
    rw [e]
    exact Frame_error K _ hf.2

theorem Frame_switch {σ : Type} (K : Consts) {cap : Nat} (reader : ifd_reader_t σ)
    (iso : ifd_iso_apdu_t) (sbuf : ct_buf_t) {rbuf : ct_buf_t} (w : World σ) {h : Handled σ}
    (hf : Frame cap rbuf)
    (hr : ifd_ctapi_switch K reader iso sbuf rbuf w = .ok h) : Frame cap h.rbuf := by
  unfold ifd_ctapi_switch at hr
  split_ifs at hr
  · exact Frame_reset K reader iso _ _ w hf hr
  · exact Frame_request_icc K reader iso sbuf w hf hr
  · have e : h = _ := (Except.ok.inj hr).symm
    rw [e]
    exact Frame_status K reader iso w hf
  · have e : h = _ := (Except.ok.inj hr).symm
    rw [e]
    exact Frame_error K _ hf.2

/-! ## The dispatcher -/

/-- C1: whenever `ifd_ctapi_control` returns a non-negative value `n`, then
`2 ≤ n ≤ rsp_len`, the response consists of `n` bytes, and its last two bytes
are the big-endian encoding of one of the five status words (0x9000, bad
class, bad instruction, bad parameters, bad length); this for every command,
parser, driver and response capacity.  The two error codes are negative. -/
theorem C1_control_response_ends_in_status_word {σ : Type} (K : Consts)
    (parse : List Nat → Nat → Option ifd_iso_apdu_t) (reader : ifd_reader_t σ)
    (cmd : List Nat) (cmd_len : Nat) (rsp : List Nat) (rsp_len : Nat) (w : World σ)
    (out : Outcome σ) (hE : K.ERR_INVALID < 0) (hT : K.ERR_TRANS < 0)
    (hrun : ifd_ctapi_control K parse reader cmd cmd_len rsp rsp_len w = .ok out)
    (hn : 0 ≤ out.rc) :
    2 ≤ out.rc ∧ out.rc ≤ rsp_len ∧ out.response.length = out.rc.toNat
      ∧ ∃ sw ∈ K.status_words, out.response.drop (out.rc.toNat - 2) = be16 sw := by
  have key : ∀ (bp : ct_buf_t) (w1 : World σ), Resp K rsp_len bp →
      out = { rc := (ct_buf_avail bp : Nat), rsp := bp.base, w := w1 } →
      2 ≤ out.rc ∧ out.rc ≤ rsp_len ∧ out.response.length = out.rc.toNat
        ∧ ∃ sw ∈ K.status_words, out.response.drop (out.rc.toNat - 2) = be16 sw := by
    intro bp w1 hR e
    obtain ⟨h1, h2, h3, h4⟩ := Resp_outcome hR
    subst e
    simp only [Outcome.response, Int.toNat_ofNat]
    exact ⟨by exact_mod_cast h1, by exact_mod_cast h2, h3, h4⟩
  unfold ifd_ctapi_control at hrun
  dsimp only at hrun
  split_ifs at hrun with hcap
  · have e := Except.ok.inj hrun
    rw [← e] at hn
    exact absurd hn (by simpa using hE)
  · have hc : 2 ≤ rsp_len := by omega
    split at hrun
    · have e := Except.ok.inj hrun
      rw [← e] at hn
      exact absurd hn (by simpa using hE)
    · rename_i iso hparse
      split_ifs at hrun with hcla
      · have e := (Except.ok.inj hrun).symm
        exact key _ _ (error_Resp K _ _ rfl hc (sw_bad_class_mem K)).2 e
      · split at hrun
        · exact absurd hrun (by simp)
        · rename_i h hsw
          have hpost := switch_post K reader iso _ _ (WBuf_init rsp rsp_len) hc hE hsw
          split_ifs at hrun with hneg hlong
          · have e := Except.ok.inj hrun
            rw [← e] at hn
            exact absurd hn (by simpa using hneg)
          · have hsz : h.rbuf.size = rsp_len :=
              (HandlerPost_WBuf (WBuf_init rsp rsp_len) hpost).2.1
            have e := (Except.ok.inj hrun).symm
            exact key _ _ (error_Resp K _ _ hsz hc (sw_bad_length_mem K)).2 e
          · rcases hpost with ⟨e1, _⟩ | ⟨_, hR⟩
            · exact absurd hneg (by rw [e1]; simpa using hT)
            · have e := (Except.ok.inj hrun).symm
              exact key _ _ hR e

theorem C1_control_response_ends_in_status_word_witness :
    (ifd_ctapi_control ctbcs apdu_parse_short example_reader [0x20, 0x13, 0x00, 0x80, 0x02] 5
        (List.replicate 8 0) 8 example_world
      = .ok { rc := 4, rsp := [0x05, 0x00, 0x90, 0x00, 0, 0, 0, 0],
              w := { drv := 0, calls := [Call.apdu_parse, Call.card_status 0,
                                         Call.card_status 1] } })
    ∧ (2 : Int) ≤ 4 ∧ (4 : Int) ≤ (8 : Nat)
    ∧ ∃ sw ∈ ctbcs.status_words, [0x90, 0x00] = be16 sw := by
  have hrun : ifd_ctapi_control ctbcs apdu_parse_short example_reader
      [0x20, 0x13, 0x00, 0x80, 0x02] 5 (List.replicate 8 0) 8 example_world
      = .ok { rc := 4, rsp := [0x05, 0x00, 0x90, 0x00, 0, 0, 0, 0],
              w := { drv := 0, calls := [Call.apdu_parse, Call.card_status 0,
                                         Call.card_status 1] } } := by
    rfl
  obtain ⟨h1, h2, _, sw, hsw, h4⟩ :=
    C1_control_response_ends_in_status_word ctbcs apdu_parse_short example_reader
      [0x20, 0x13, 0x00, 0x80, 0x02] 5 (List.replicate 8 0) 8 example_world _
      (by decide) (by decide) hrun (by decide)
  exact ⟨hrun, h1, h2, sw, hsw, by simpa [Outcome.response] using h4⟩

/-- C2: for a command of the CTBCS class whose handler ends with a
non-negative code and `k` bytes in the response buffer: if `k > le + 2` the
dispatcher returns 2 and the response is exactly the bad-length status word;
otherwise it returns `k`, and the response region and the `k` response bytes
are those the handler left. -/
theorem C2_control_length_policy {σ : Type} (K : Consts)
    (parse : List Nat → Nat → Option ifd_iso_apdu_t) (reader : ifd_reader_t σ)
    (cmd : List Nat) (cmd_len : Nat) (rsp : List Nat) (rsp_len : Nat) (w : World σ)
    (iso : ifd_iso_apdu_t) (h : Handled σ)
    (hcap : 2 ≤ rsp_len) (hparse : parse cmd cmd_len = some iso)
    (hcla : iso.cla = K.CTBCS_CLA)
    (hsw : ifd_ctapi_switch K reader iso (ct_buf_set cmd cmd_len) (ct_buf_init rsp rsp_len)
        { w with calls := w.calls ++ [Call.apdu_parse] } = .ok h)
    (hrc : 0 ≤ h.rc) :
    ∃ out, ifd_ctapi_control K parse reader cmd cmd_len rsp rsp_len w = .ok out
      ∧ out.w = h.w
      ∧ (iso.le + 2 < ct_buf_avail h.rbuf →
          out.rc = 2 ∧ out.response = be16 K.CTBCS_SW_BAD_LENGTH)
      ∧ (ct_buf_avail h.rbuf ≤ iso.le + 2 →
          out.rc = ct_buf_avail h.rbuf ∧ out.rsp = h.rbuf.base
            ∧ out.response = ct_buf_data h.rbuf) := by
  have hf := Frame_switch K reader iso _ _ (Frame_init rsp rsp_len) hsw
  have hneg : ¬ h.rc < 0 := by omega
  unfold ifd_ctapi_control
  dsimp only
  rw [if_neg (by omega), hparse]
  dsimp only
  rw [if_neg (by simp [hcla]), hsw]
  dsimp only
  rw [if_neg hneg]
  by_cases hlong : ct_buf_avail h.rbuf > iso.le + 2
  · rw [if_pos hlong, error_eq K h.rbuf _ (by rw [hf.2]; exact hcap)]
    refine ⟨_, rfl, rfl, fun _ => ⟨by simp [ct_buf_avail], ?_⟩, fun hle => absurd hlong (by omega)⟩
    simp [Outcome.response, ct_buf_avail, be16]
  · rw [if_neg hlong]
    refine ⟨_, rfl, rfl, fun hl => absurd hl (by omega), fun _ => ⟨rfl, rfl, ?_⟩⟩
    simp [Outcome.response, ct_buf_data, hf.1]

theorem C2_control_length_policy_witness :
    ifd_ctapi_switch ctbcs example_reader
        { cla := 0x20, ins := 0x11, p1 := 0x01, p2 := 0x01, le := 1 }
        (ct_buf_set [0x20, 0x11, 0x01, 0x01, 0x01] 5) (ct_buf_init (List.replicate 8 0) 8)
        { example_world with calls := example_world.calls ++ [Call.apdu_parse] }
      = .ok { rc := 0,
              rbuf := { base := [0x3b, 0x65, 0x00, 0x00, 0x90, 0x00, 0, 0],
                        head := 0, tail := 6, size := 8 },
              w := { drv := 1, calls := [Call.apdu_parse, Call.card_reset 0] } }
    ∧ ∃ out, ifd_ctapi_control ctbcs apdu_parse_short example_reader
          [0x20, 0x11, 0x01, 0x01, 0x01] 5 (List.replicate 8 0) 8 example_world = .ok out
        ∧ out.rc = 2 ∧ out.response = [0x67, 0x00] := by
  have hsw : ifd_ctapi_switch ctbcs example_reader
        { cla := 0x20, ins := 0x11, p1 := 0x01, p2 := 0x01, le := 1 }
        (ct_buf_set [0x20, 0x11, 0x01, 0x01, 0x01] 5) (ct_buf_init (List.replicate 8 0) 8)
        { example_world with calls := example_world.calls ++ [Call.apdu_parse] }
      = .ok { rc := 0,
              rbuf := { base := [0x3b, 0x65, 0x00, 0x00, 0x90, 0x00, 0, 0],
                        head := 0, tail := 6, size := 8 },
              w := { drv := 1, calls := [Call.apdu_parse, Call.card_reset 0] } } := by
    rfl
  obtain ⟨out, h1, _, h3, _⟩ :=
    C2_control_length_policy ctbcs apdu_parse_short example_reader
      [0x20, 0x11, 0x01, 0x01, 0x01] 5 (List.replicate 8 0) 8 example_world _ _
      (by decide) rfl rfl hsw (by decide)
  exact ⟨hsw, out, h1, (h3 (by decide)).1, (h3 (by decide)).2⟩

/-- C3: for a command that parses and whose class byte is not the CTBCS class,
with a response capacity of at least 2, `ifd_ctapi_control` returns 2 and the
response is exactly the two bytes of the bad-class status word, whatever the
instruction, the parameters and the expected length are; the bytes of the
response region after these two are untouched, the driver state is unchanged
and the only call made is the one to the header parser. -/
theorem C3_control_bad_class {σ : Type} (K : Consts)
    (parse : List Nat → Nat → Option ifd_iso_apdu_t) (reader : ifd_reader_t σ)
    (cmd : List Nat) (cmd_len : Nat) (rsp : List Nat) (rsp_len : Nat) (w : World σ)
    (iso : ifd_iso_apdu_t)
    (hcap : 2 ≤ rsp_len) (hparse : parse cmd cmd_len = some iso)
    (hcla : iso.cla ≠ K.CTBCS_CLA) :
    ∃ out, ifd_ctapi_control K parse reader cmd cmd_len rsp rsp_len w = .ok out
      ∧ out.rc = 2 ∧ out.response = be16 K.CTBCS_SW_BAD_CLASS
      ∧ out.rsp = be16 K.CTBCS_SW_BAD_CLASS ++ rsp.drop 2
      ∧ out.w.drv = w.drv ∧ out.w.calls = w.calls ++ [Call.apdu_parse] := by
  unfold ifd_ctapi_control
  dsimp only
  rw [if_neg (by omega), hparse]
  dsimp only
  rw [if_pos hcla, error_eq K _ _ (by simpa [ct_buf_init] using hcap)]
  refine ⟨_, rfl, by simp [ct_buf_avail], ?_, by simp [ct_buf_init], rfl, rfl⟩
  simp [Outcome.response, ct_buf_avail, be16]

theorem C3_control_bad_class_witness :
    ∃ out, ifd_ctapi_control ctbcs apdu_parse_short example_reader
        [0x00, 0x11, 0x01, 0x01, 0x00] 5 [1, 2, 3, 4] 4 example_world = .ok out
      ∧ out.rc = 2 ∧ out.response = [0x6e, 0x00] ∧ out.rsp = [0x6e, 0x00, 3, 4]
      ∧ out.w.drv = 0 ∧ out.w.calls = [Call.apdu_parse] :=
  C3_control_bad_class ctbcs apdu_parse_short example_reader
    [0x00, 0x11, 0x01, 0x01, 0x00] 5 [1, 2, 3, 4] 4 example_world
    { cla := 0x00, ins := 0x11, p1 := 0x01, p2 := 0x01, le := 256 }
    (by decide) rfl (by decide)

/-- C4: for a command of the CTBCS class whose instruction byte is none of
RESET, REQUEST-ICC and STATUS, with a response capacity of at least 2 and any
expected length, `ifd_ctapi_control` returns 2 and the response is exactly the
two bytes of the bad-instruction status word; no driver call is made. -/
theorem C4_control_bad_instruction {σ : Type} (K : Consts)
    (parse : List Nat → Nat → Option ifd_iso_apdu_t) (reader : ifd_reader_t σ)
    (cmd : List Nat) (cmd_len : Nat) (rsp : List Nat) (rsp_len : Nat) (w : World σ)
    (iso : ifd_iso_apdu_t)
    (hcap : 2 ≤ rsp_len) (hparse : parse cmd cmd_len = some iso)
    (hcla : iso.cla = K.CTBCS_CLA)
    (h1 : iso.ins ≠ K.CTBCS_INS_RESET) (h2 : iso.ins ≠ K.CTBCS_INS_REQUEST_ICC)
    (h3 : iso.ins ≠ K.CTBCS_INS_STATUS) :
    ∃ out, ifd_ctapi_control K parse reader cmd cmd_len rsp rsp_len w = .ok out
      ∧ out.rc = 2 ∧ out.response = be16 K.CTBCS_SW_BAD_INS
      ∧ out.rsp = be16 K.CTBCS_SW_BAD_INS ++ rsp.drop 2
      ∧ out.w.drv = w.drv ∧ out.w.calls = w.calls ++ [Call.apdu_parse] := by
  have hsz : 2 ≤ (ct_buf_init rsp rsp_len).size := by simpa [ct_buf_init] using hcap
  unfold ifd_ctapi_control
  dsimp only
  rw [if_neg (by omega), hparse]
  dsimp only
  rw [if_neg (by simp [hcla])]
  unfold ifd_ctapi_switch
  rw [if_neg h1, if_neg h2, if_neg h3]
  dsimp only
  rw [error_eq K _ _ hsz]
  dsimp only
  rw [if_neg (by decide), if_neg (by simp [ct_buf_avail])]
  refine ⟨_, rfl, by simp [ct_buf_avail], ?_, by simp [ct_buf_init], rfl, rfl⟩
  simp [Outcome.response, ct_buf_avail, be16]

theorem C4_control_bad_instruction_witness :
    ∃ out, ifd_ctapi_control ctbcs apdu_parse_short example_reader
        [0x20, 0x15, 0x01, 0x00] 4 [1, 2, 3, 4] 4 example_world = .ok out
      ∧ out.rc = 2 ∧ out.response = [0x6d, 0x00] ∧ out.rsp = [0x6d, 0x00, 3, 4]
      ∧ out.w.drv = 0 ∧ out.w.calls = [Call.apdu_parse] :=
  C4_control_bad_instruction ctbcs apdu_parse_short example_reader
    [0x20, 0x15, 0x01, 0x00] 4 [1, 2, 3, 4] 4 example_world
    { cla := 0x20, ins := 0x15, p1 := 0x01, p2 := 0x00, le := 0 }
    (by decide) rfl rfl (by decide) (by decide) (by decide)

/-- C5: with a response capacity below 2, `ifd_ctapi_control` returns
`ERR_INVALID` at once: the response region and the world are as they were, the
header parser is not even called.  With a capacity of at least 2 and a command
the parser rejects, it returns `ERR_INVALID` as well, the response region is as
it was, and the parser call is the only call made. -/
theorem C5_control_invalid_input {σ : Type} (K : Consts)
    (parse : List Nat → Nat → Option ifd_iso_apdu_t) (reader : ifd_reader_t σ)
    (cmd : List Nat) (cmd_len : Nat) (rsp : List Nat) (rsp_len : Nat) (w : World σ) :
    (rsp_len < 2 →
      ifd_ctapi_control K parse reader cmd cmd_len rsp rsp_len w
        = .ok { rc := K.ERR_INVALID, rsp := rsp, w := w })
    ∧ (2 ≤ rsp_len → parse cmd cmd_len = none →
      ifd_ctapi_control K parse reader cmd cmd_len rsp rsp_len w
        = .ok { rc := K.ERR_INVALID, rsp := rsp,
                w := { drv := w.drv, calls := w.calls ++ [Call.apdu_parse] } }) := by
  constructor
  · intro h
    unfold ifd_ctapi_control
    rw [if_pos h]
  · intro h hp
    unfold ifd_ctapi_control
    dsimp only
    rw [if_neg (by omega), hp]

theorem C5_control_invalid_input_witness :
    (ifd_ctapi_control ctbcs apdu_parse_short example_reader
        [0x20, 0x13, 0x00, 0x80] 4 [7] 1 example_world
      = .ok { rc := -1, rsp := [7], w := { drv := 0, calls := [] } })
    ∧ (ifd_ctapi_control ctbcs apdu_parse_short example_reader
        [0x20, 0x13, 0x00] 3 [7, 8, 9] 3 example_world
      = .ok { rc := -1, rsp := [7, 8, 9], w := { drv := 0, calls := [Call.apdu_parse] } }) :=
  ⟨(C5_control_invalid_input ctbcs apdu_parse_short example_reader
      [0x20, 0x13, 0x00, 0x80] 4 [7] 1 example_world).1 (by decide),
   (C5_control_invalid_input ctbcs apdu_parse_short example_reader
      [0x20, 0x13, 0x00] 3 [7, 8, 9] 3 example_world).2 (by decide) rfl⟩

/-! ## The status handler -/

theorem status_byte_eq (K : Consts) (rc : Int) (st : Nat) :
    (if ((if rc < 0 then 0 else st) &&& K.IFD_CARD_PRESENT) ≠ 0
      then K.CTBCS_DATA_STATUS_CARD_CONNECT else K.CTBCS_DATA_STATUS_NOCARD) % 256
      = presence_byte K (rc, st) % 256 := by
  unfold presence_byte
  by_cases hrc : rc < 0
  · have hn : ¬ (0 ≤ rc) := by omega
    simp [hrc, hn]
  · have hn : 0 ≤ rc := by omega
    simp [hrc, hn]

theorem presence_byte_mod (K : Consts) (q : Int × Nat)
    (h1 : K.CTBCS_DATA_STATUS_CARD_CONNECT < 256) (h2 : K.CTBCS_DATA_STATUS_NOCARD < 256) :
    presence_byte K q % 256 = presence_byte K q := by
  unfold presence_byte
  split_ifs
  · exact Nat.mod_eq_of_lt h1
  · exact Nat.mod_eq_of_lt h2

theorem slot_queries_length {σ : Type} (reader : ifd_reader_t σ) :
    ∀ (k n : Nat) (s : σ), (slot_queries reader k n s).length = k := by
  intro k
  induction k with
  | zero => intro n s; rfl
  | succ k ih => intro n s; simp [slot_queries, ih]

theorem status_loop_ok {σ : Type} (K : Consts) {cap : Nat} (reader : ifd_reader_t σ) :
    ∀ (k n : Nat) (rbuf : ct_buf_t) (w : World σ), WBuf cap rbuf → rbuf.tail + k ≤ cap →
      (ifd_ctapi_status_loop K reader k n rbuf w).1 = true
      ∧ WBuf cap (ifd_ctapi_status_loop K reader k n rbuf w).2.1
      ∧ (ifd_ctapi_status_loop K reader k n rbuf w).2.1.tail = rbuf.tail + k
      ∧ (ifd_ctapi_status_loop K reader k n rbuf w).2.1.base.take (rbuf.tail + k)
          = rbuf.base.take rbuf.tail
              ++ (slot_queries reader k n w.drv).map (fun q => presence_byte K q % 256)
      ∧ (ifd_ctapi_status_loop K reader k n rbuf w).2.2
          = { drv := slot_queries_state reader k n w.drv,
              calls := w.calls ++ (List.range' n k).map Call.card_status } := by
  intro k
  induction k with
  | zero =>
    intro n rbuf w hb _
    simp [ifd_ctapi_status_loop, slot_queries, slot_queries_state, hb]
  | succ k ih =>
    intro n rbuf w hb hroom
    have hs : rbuf.size = cap := hb.2.1
    unfold ifd_ctapi_status_loop
    dsimp only
    have hp := ct_buf_put_some rbuf
      [(if ((if (ifd_card_status reader n w).1 < 0 then 0 else (ifd_card_status reader n w).2.1)
            &&& K.IFD_CARD_PRESENT) ≠ 0
          then K.CTBCS_DATA_STATUS_CARD_CONNECT else K.CTBCS_DATA_STATUS_NOCARD) % 256] 1
      (by omega)
    rw [hp]
    dsimp only
    obtain ⟨hb1, ht1, hd1⟩ := WBuf_put hb (by simp) hp
    dsimp only at hb1 ht1 hd1
    obtain ⟨i1, i2, i3, i4, i5⟩ := ih (n + 1) _ (ifd_card_status reader n w).2.2 hb1
      (by dsimp only; omega)
    dsimp only at i3 i4
    refine ⟨i1, i2, by rw [i3]; omega, ?_, ?_⟩
    · have e : rbuf.tail + (k + 1) = rbuf.tail + 1 + k := by omega
      rw [e, i4, hd1, status_byte_eq K _ _]
      simp [slot_queries, ifd_card_status]
    · rw [i5]
      simp [slot_queries_state, ifd_card_status, List.range'_succ]

theorem status_ok {σ : Type} (K : Consts) {cap : Nat} (reader : ifd_reader_t σ)
    (iso : ifd_iso_apdu_t) {rbuf : ct_buf_t} (w : World σ)
    (h1 : K.CTBCS_DATA_STATUS_CARD_CONNECT < 256) (h2 : K.CTBCS_DATA_STATUS_NOCARD < 256)
    (hb : WBuf cap rbuf) (hroom : rbuf.tail + reader.nslots + 2 ≤ cap) :
    ∃ bp1, ifd_ctapi_status K reader iso rbuf w
        = { rc := 0, rbuf := bp1,
            w := { drv := slot_queries_state reader reader.nslots 0 w.drv,
                   calls := w.calls ++ (List.range' 0 reader.nslots).map Call.card_status } }
      ∧ WBuf cap bp1 ∧ bp1.tail = rbuf.tail + reader.nslots + 2
      ∧ bp1.base.take bp1.tail
          = rbuf.base.take rbuf.tail
              ++ (slot_queries reader reader.nslots 0 w.drv).map (presence_byte K)
              ++ be16 0x9000 := by
  obtain ⟨i1, i2, i3, i4, i5⟩ :=
    status_loop_ok K reader reader.nslots 0 rbuf w hb (by omega)
  have hmap : (slot_queries reader reader.nslots 0 w.drv).map (fun q => presence_byte K q % 256)
      = (slot_queries reader reader.nslots 0 w.drv).map (presence_byte K) :=
    List.map_congr_left (fun q _ => presence_byte_mod K q h1 h2)
  obtain ⟨bp1, e, hb1, ht1, hd1⟩ := put_sw_ok K 0x9000 i2 (by rw [i3]; omega)
  refine ⟨bp1, ?_, hb1, by rw [ht1, i3], ?_⟩
  · unfold ifd_ctapi_status
    dsimp only
    rw [if_pos i1, e]
    dsimp only
    rw [if_neg (by decide), i5]
  · rw [hd1, i3, i4, hmap]

/-- C6: for a STATUS command of the CTBCS class on a terminal with `N` slots,
with a response capacity of at least `N + 2` and an expected length of at
least `N`, `ifd_ctapi_control` returns `N + 2` and the response is `N` status
bytes followed by 0x90, 0x00.  Byte `k` is the card-present byte exactly when
the status query of slot `k` succeeded and reported the present flag, and the
card-absent byte otherwise.  The slots are queried once each, in ascending
order. -/
theorem C6_control_status {σ : Type} (K : Consts)
    (parse : List Nat → Nat → Option ifd_iso_apdu_t) (reader : ifd_reader_t σ)
    (cmd : List Nat) (cmd_len : Nat) (rsp : List Nat) (rsp_len : Nat) (w : World σ)
    (iso : ifd_iso_apdu_t)
    (hcap : reader.nslots + 2 ≤ rsp_len) (hle : reader.nslots ≤ iso.le)
    (hparse : parse cmd cmd_len = some iso) (hcla : iso.cla = K.CTBCS_CLA)
    (hins : iso.ins = K.CTBCS_INS_STATUS)
    (hd1 : K.CTBCS_INS_STATUS ≠ K.CTBCS_INS_RESET)
    (hd2 : K.CTBCS_INS_STATUS ≠ K.CTBCS_INS_REQUEST_ICC)
    (hb1 : K.CTBCS_DATA_STATUS_CARD_CONNECT < 256)
    (hb2 : K.CTBCS_DATA_STATUS_NOCARD < 256) :
    ∃ out, ifd_ctapi_control K parse reader cmd cmd_len rsp rsp_len w = .ok out
      ∧ out.rc = reader.nslots + 2
      ∧ out.response
          = (slot_queries reader reader.nslots 0 w.drv).map (presence_byte K) ++ [0x90, 0x00]
      ∧ (slot_queries reader reader.nslots 0 w.drv).length = reader.nslots
      ∧ out.w.drv = slot_queries_state reader reader.nslots 0 w.drv
      ∧ out.w.calls
          = w.calls ++ [Call.apdu_parse] ++ (List.range reader.nslots).map Call.card_status := by
  obtain ⟨bp1, e, hw1, ht1, hd⟩ :=
    status_ok K reader iso { w with calls := w.calls ++ [Call.apdu_parse] } hb1 hb2
      (WBuf_init rsp rsp_len) (by simpa [ct_buf_init] using hcap)
  have hav : ct_buf_avail bp1 = reader.nslots + 2 := by
    simp [ct_buf_avail, hw1.1, ht1, ct_buf_init]
  unfold ifd_ctapi_control
  dsimp only
  rw [if_neg (by omega), hparse]
  dsimp only
  rw [if_neg (by simp [hcla])]
  unfold ifd_ctapi_switch
  rw [if_neg (by rw [hins]; exact hd1), if_neg (by rw [hins]; exact hd2), if_pos hins, e]
  dsimp only
  rw [if_neg (by decide), if_neg (by rw [hav]; omega)]
  refine ⟨_, rfl, by simp [hav], ?_, slot_queries_length reader _ _ _, rfl, ?_⟩
  · simp only [Outcome.response, Int.toNat_ofNat]
    have ht : ct_buf_avail bp1 = bp1.tail := by simp [ct_buf_avail, hw1.1]
    rw [ht, hd]
    simp [ct_buf_init, be16]
  · simp [List.range_eq_range']

theorem C6_control_status_witness :
    ∃ out, ifd_ctapi_control ctbcs apdu_parse_short example_reader
        [0x20, 0x13, 0x00, 0x80, 0x02] 5 (List.replicate 4 0) 4 example_world = .ok out
      ∧ out.rc = 4
      ∧ out.response
          = [ctbcs.CTBCS_DATA_STATUS_CARD_CONNECT, ctbcs.CTBCS_DATA_STATUS_NOCARD, 0x90, 0x00]
      ∧ out.w.calls = [Call.apdu_parse, Call.card_status 0, Call.card_status 1] := by
  obtain ⟨out, h1, h2, h3, _, _, h6⟩ :=
    C6_control_status ctbcs apdu_parse_short example_reader
      [0x20, 0x13, 0x00, 0x80, 0x02] 5 (List.replicate 4 0) 4 example_world
      { cla := 0x20, ins := 0x13, p1 := 0x00, p2 := 0x80, le := 2 }
      (by decide) (by decide) rfl rfl rfl (by decide) (by decide) (by decide) (by decide)
  exact ⟨out, h1, h2, h3, h6⟩

/-! ## The reset handler -/

theorem reset_send_ok {σ : Type} (K : Consts) {cap : Nat} {rbuf : ct_buf_t}
    (atr : List Nat) (atrlen : Nat) (w : World σ)
    (hb : WBuf cap rbuf) (hlen : atrlen ≤ atr.length)
    (hroom : rbuf.tail + atrlen + 2 ≤ cap) :
    ∃ bp1, ifd_ctapi_reset_send K rbuf atr atrlen w = .ok { rc := 0, rbuf := bp1, w := w }
      ∧ WBuf cap bp1 ∧ bp1.tail = rbuf.tail + atrlen + 2
      ∧ bp1.base.take bp1.tail
          = rbuf.base.take rbuf.tail ++ atr.take atrlen ++ be16 0x9000 := by
  have hs : rbuf.size = cap := hb.2.1
  have hp := ct_buf_put_some rbuf atr atrlen (by omega)
  obtain ⟨hb1, ht1, hd1⟩ := WBuf_put hb hlen hp
  obtain ⟨bp1, e, hb2, ht2, hd2⟩ := put_sw_ok K 0x9000 hb1 (by rw [ht1]; omega)
  refine ⟨bp1, ?_, hb2, by rw [ht2, ht1], by rw [hd2, hd1]⟩
  unfold ifd_ctapi_reset_send
  rw [if_neg (by omega), hp]
  dsimp only
  rw [e]
  dsimp only
  rw [if_neg (by decide)]

theorem reset_send_overflow {σ : Type} (K : Consts) {cap : Nat} {rbuf : ct_buf_t}
    (atr : List Nat) (atrlen : Nat) (w : World σ)
    (hb : WBuf cap rbuf) (hlen : atrlen ≤ atr.length)
    (hroom : cap < rbuf.tail + atrlen + 2) (hc : 2 ≤ cap) (hE : K.ERR_INVALID < 0) :
    ∃ bp1, ifd_ctapi_reset_send K rbuf atr atrlen w = .ok { rc := 2, rbuf := bp1, w := w }
      ∧ bp1.head = 0 ∧ bp1.tail = 2 ∧ bp1.size = cap
      ∧ ct_buf_data bp1 = be16 K.CTBCS_SW_BAD_LENGTH := by
  have hs : rbuf.size = cap := hb.2.1
  have ht : rbuf.tail ≤ cap := hb.2.2.1
  unfold ifd_ctapi_reset_send
  rw [if_neg (by omega)]
  by_cases hput : rbuf.tail + atrlen ≤ cap
  · have hp := ct_buf_put_some rbuf atr atrlen (by omega)
    obtain ⟨hb1, ht1, _⟩ := WBuf_put hb hlen hp
    rw [hp]
    dsimp only
    rw [put_sw_fail K 0x9000 hb1 (by rw [ht1]; omega)]
    dsimp only
    rw [if_pos hE, error_eq K _ _ (by rw [hb1.2.1]; exact hc)]
    exact ⟨_, rfl, rfl, rfl, hb1.2.1, by simp [ct_buf_data, ct_buf_avail, be16]⟩
  · rw [ct_buf_put_none rbuf atr atrlen (by omega) (by omega)]
    dsimp only
    rw [error_eq K _ _ (by omega)]
    exact ⟨_, rfl, rfl, rfl, hs, by simp [ct_buf_data, ct_buf_avail, be16]⟩

theorem reset_driver_failure {σ : Type} (K : Consts) (reader : ifd_reader_t σ)
    (iso : ifd_iso_apdu_t) (rbuf : ct_buf_t) (timeout : Nat) (message : Option (List Nat))
    (w : World σ)
    (hunit : iso.p1 = K.CTBCS_UNIT_INTERFACE1 ∨ iso.p1 = K.CTBCS_UNIT_INTERFACE2)
    (hfail : (reader.card_reset w.drv ((iso.p1 : Int) - (K.CTBCS_UNIT_INTERFACE1 : Int)) 64).1 < 0) :
    ifd_ctapi_reset K reader iso rbuf timeout message w
      = .ok { rc := K.ERR_TRANS, rbuf := rbuf,
              w := { drv := (reader.card_reset w.drv
                        ((iso.p1 : Int) - (K.CTBCS_UNIT_INTERFACE1 : Int)) 64).2.2,
                     calls := w.calls ++ [Call.card_reset
                        ((iso.p1 : Int) - (K.CTBCS_UNIT_INTERFACE1 : Int))] } } := by
  unfold ifd_ctapi_reset
  dsimp only
  rw [if_pos hunit, if_pos (by simpa [ifd_card_reset] using hfail)]
  rfl

theorem reset_no_resp {σ : Type} (K : Consts) (reader : ifd_reader_t σ)
    (iso : ifd_iso_apdu_t) (rbuf : ct_buf_t) (timeout : Nat) (message : Option (List Nat))
    (w : World σ)
    (hunit : iso.p1 = K.CTBCS_UNIT_INTERFACE1 ∨ iso.p1 = K.CTBCS_UNIT_INTERFACE2)
    (hok : 0 ≤ (reader.card_reset w.drv ((iso.p1 : Int) - (K.CTBCS_UNIT_INTERFACE1 : Int)) 64).1)
    (hp2 : iso.p2 &&& 0xF = K.CTBCS_P2_RESET_NO_RESP) :
    ifd_ctapi_reset K reader iso rbuf timeout message w
      = ifd_ctapi_reset_send K rbuf
          (reader.card_reset w.drv ((iso.p1 : Int) - (K.CTBCS_UNIT_INTERFACE1 : Int)) 64).2.1 0
          { drv := (reader.card_reset w.drv
                      ((iso.p1 : Int) - (K.CTBCS_UNIT_INTERFACE1 : Int)) 64).2.2,
            calls := w.calls ++ [Call.card_reset
                      ((iso.p1 : Int) - (K.CTBCS_UNIT_INTERFACE1 : Int))] } := by
  unfold ifd_ctapi_reset
  dsimp only
  rw [if_pos hunit, if_neg (by simpa [ifd_card_reset] using hok), if_pos hp2]
  rfl

theorem reset_get_atr {σ : Type} (K : Consts) (reader : ifd_reader_t σ)
    (iso : ifd_iso_apdu_t) (rbuf : ct_buf_t) (timeout : Nat) (message : Option (List Nat))
    (w : World σ)
    (hunit : iso.p1 = K.CTBCS_UNIT_INTERFACE1 ∨ iso.p1 = K.CTBCS_UNIT_INTERFACE2)
    (hok : 0 ≤ (reader.card_reset w.drv ((iso.p1 : Int) - (K.CTBCS_UNIT_INTERFACE1 : Int)) 64).1)
    (hp2 : iso.p2 &&& 0xF = K.CTBCS_P2_RESET_GET_ATR)
    (hd : K.CTBCS_P2_RESET_NO_RESP ≠ K.CTBCS_P2_RESET_GET_ATR) :
    ifd_ctapi_reset K reader iso rbuf timeout message w
      = ifd_ctapi_reset_send K rbuf
          (reader.card_reset w.drv ((iso.p1 : Int) - (K.CTBCS_UNIT_INTERFACE1 : Int)) 64).2.1
          (reader.card_reset w.drv
            ((iso.p1 : Int) - (K.CTBCS_UNIT_INTERFACE1 : Int)) 64).1.toNat
          { drv := (reader.card_reset w.drv
                      ((iso.p1 : Int) - (K.CTBCS_UNIT_INTERFACE1 : Int)) 64).2.2,
            calls := w.calls ++ [Call.card_reset
                      ((iso.p1 : Int) - (K.CTBCS_UNIT_INTERFACE1 : Int))] } := by
  unfold ifd_ctapi_reset
  dsimp only
  rw [if_pos hunit, if_neg (by simpa [ifd_card_reset] using hok),
    if_neg (by rw [hp2]; exact fun h => hd h.symm), if_pos hp2]
  rfl

/-- C7: for a RESET command of the CTBCS class with a supported unit in P1 and
the low nibble of P2 asking for the full ATR, when the driver reset succeeds
with return code `L` and an ATR array holding at least `L` bytes (the array of
the C code has 64), `ifd_ctapi_control` returns `L + 2` and the response is the
first `L` bytes of the ATR array followed by 0x90, 0x00, provided the response
capacity is at least `L + 2` and the expected length at least `L`.  The driver
reset is the only driver call. -/
theorem C7_control_reset_get_atr {σ : Type} (K : Consts)
    (parse : List Nat → Nat → Option ifd_iso_apdu_t) (reader : ifd_reader_t σ)
    (cmd : List Nat) (cmd_len : Nat) (rsp : List Nat) (rsp_len : Nat) (w : World σ)
    (iso : ifd_iso_apdu_t) (L : Nat)
    (hparse : parse cmd cmd_len = some iso) (hcla : iso.cla = K.CTBCS_CLA)
    (hins : iso.ins = K.CTBCS_INS_RESET)
    (hunit : iso.p1 = K.CTBCS_UNIT_INTERFACE1 ∨ iso.p1 = K.CTBCS_UNIT_INTERFACE2)
    (hp2 : iso.p2 &&& 0xF = K.CTBCS_P2_RESET_GET_ATR)
    (hd : K.CTBCS_P2_RESET_NO_RESP ≠ K.CTBCS_P2_RESET_GET_ATR)
    (hrc : (reader.card_reset w.drv ((iso.p1 : Int) - (K.CTBCS_UNIT_INTERFACE1 : Int)) 64).1
            = (L : Int))
    (hatr : L ≤ (reader.card_reset w.drv
                  ((iso.p1 : Int) - (K.CTBCS_UNIT_INTERFACE1 : Int)) 64).2.1.length)
    (hcap : L + 2 ≤ rsp_len) (hle : L ≤ iso.le) :
    ∃ out, ifd_ctapi_control K parse reader cmd cmd_len rsp rsp_len w = .ok out
      ∧ out.rc = L + 2
      ∧ out.response
          = (reader.card_reset w.drv
              ((iso.p1 : Int) - (K.CTBCS_UNIT_INTERFACE1 : Int)) 64).2.1.take L ++ [0x90, 0x00]
      ∧ out.w.drv = (reader.card_reset w.drv
              ((iso.p1 : Int) - (K.CTBCS_UNIT_INTERFACE1 : Int)) 64).2.2
      ∧ out.w.calls = w.calls ++ [Call.apdu_parse,
              Call.card_reset ((iso.p1 : Int) - (K.CTBCS_UNIT_INTERFACE1 : Int))] := by
  have hok : 0 ≤ (reader.card_reset w.drv
      ((iso.p1 : Int) - (K.CTBCS_UNIT_INTERFACE1 : Int)) 64).1 := by
    rw [hrc]; exact Int.ofNat_nonneg L
  have hreset := reset_get_atr K reader iso (ct_buf_init rsp rsp_len) 0 none
    { w with calls := w.calls ++ [Call.apdu_parse] } hunit hok hp2 hd
  dsimp only at hreset
  rw [hrc, Int.toNat_ofNat] at hreset
  obtain ⟨bp1, e, hb1, ht1, hd1⟩ := reset_send_ok K
    (reader.card_reset w.drv ((iso.p1 : Int) - (K.CTBCS_UNIT_INTERFACE1 : Int)) 64).2.1 L
    ({ drv := (reader.card_reset w.drv
                ((iso.p1 : Int) - (K.CTBCS_UNIT_INTERFACE1 : Int)) 64).2.2,
       calls := w.calls ++ [Call.apdu_parse] ++ [Call.card_reset
                ((iso.p1 : Int) - (K.CTBCS_UNIT_INTERFACE1 : Int))] } : World σ)
    (WBuf_init rsp rsp_len) hatr (by simpa [ct_buf_init] using hcap)
  have hav : ct_buf_avail bp1 = L + 2 := by
    simp [ct_buf_avail, hb1.1, ht1, ct_buf_init]
  unfold ifd_ctapi_control
  dsimp only
  rw [if_neg (by omega), hparse]
  dsimp only
  rw [if_neg (by simp [hcla])]
  unfold ifd_ctapi_switch
  rw [if_pos hins, hreset, e]
  dsimp only
  rw [if_neg (by decide), if_neg (by rw [hav]; omega)]
  refine ⟨_, rfl, by simp [hav], ?_, rfl, by simp⟩
  simp only [Outcome.response, Int.toNat_ofNat]
  have ht : ct_buf_avail bp1 = bp1.tail := by simp [ct_buf_avail, hb1.1]
  rw [ht, hd1]
  simp [ct_buf_init, be16]

theorem C7_control_reset_get_atr_witness :
    ∃ out, ifd_ctapi_control ctbcs apdu_parse_short example_reader
        [0x20, 0x11, 0x01, 0x01, 0x04] 5 (List.replicate 6 0) 6 example_world = .ok out
      ∧ out.rc = 6 ∧ out.response = [0x3b, 0x65, 0x00, 0x00, 0x90, 0x00]
      ∧ out.w.drv = 1 ∧ out.w.calls = [Call.apdu_parse, Call.card_reset 0] :=
  C7_control_reset_get_atr ctbcs apdu_parse_short example_reader
    [0x20, 0x11, 0x01, 0x01, 0x04] 5 (List.replicate 6 0) 6 example_world
    { cla := 0x20, ins := 0x11, p1 := 0x01, p2 := 0x01, le := 4 } 4
    rfl rfl rfl (by decide) (by decide) (by decide) rfl (by decide) (by decide) (by decide)

/-- C8: for a RESET command of the CTBCS class with a supported unit in P1 and
the low nibble of P2 asking for no ATR, whenever the driver reset succeeds,
`ifd_ctapi_control` returns 2 and the response is exactly 0x90, 0x00: for every
return code and ATR array of the driver, every response capacity of at least 2
and every expected length. -/
theorem C8_control_reset_no_resp {σ : Type} (K : Consts)
    (parse : List Nat → Nat → Option ifd_iso_apdu_t) (reader : ifd_reader_t σ)
    (cmd : List Nat) (cmd_len : Nat) (rsp : List Nat) (rsp_len : Nat) (w : World σ)
    (iso : ifd_iso_apdu_t)
    (hparse : parse cmd cmd_len = some iso) (hcla : iso.cla = K.CTBCS_CLA)
    (hins : iso.ins = K.CTBCS_INS_RESET)
    (hunit : iso.p1 = K.CTBCS_UNIT_INTERFACE1 ∨ iso.p1 = K.CTBCS_UNIT_INTERFACE2)
    (hp2 : iso.p2 &&& 0xF = K.CTBCS_P2_RESET_NO_RESP)
    (hok : 0 ≤ (reader.card_reset w.drv
                  ((iso.p1 : Int) - (K.CTBCS_UNIT_INTERFACE1 : Int)) 64).1)
    (hcap : 2 ≤ rsp_len) :
    ∃ out, ifd_ctapi_control K parse reader cmd cmd_len rsp rsp_len w = .ok out
      ∧ out.rc = 2 ∧ out.response = [0x90, 0x00]
      ∧ out.w.drv = (reader.card_reset w.drv
              ((iso.p1 : Int) - (K.CTBCS_UNIT_INTERFACE1 : Int)) 64).2.2
      ∧ out.w.calls = w.calls ++ [Call.apdu_parse,
              Call.card_reset ((iso.p1 : Int) - (K.CTBCS_UNIT_INTERFACE1 : Int))] := by
  have hreset := reset_no_resp K reader iso (ct_buf_init rsp rsp_len) 0 none
    { w with calls := w.calls ++ [Call.apdu_parse] } hunit hok hp2
  dsimp only at hreset
  obtain ⟨bp1, e, hb1, ht1, hd1⟩ := reset_send_ok K
    (reader.card_reset w.drv ((iso.p1 : Int) - (K.CTBCS_UNIT_INTERFACE1 : Int)) 64).2.1 0
    ({ drv := (reader.card_reset w.drv
                ((iso.p1 : Int) - (K.CTBCS_UNIT_INTERFACE1 : Int)) 64).2.2,
       calls := w.calls ++ [Call.apdu_parse] ++ [Call.card_reset
                ((iso.p1 : Int) - (K.CTBCS_UNIT_INTERFACE1 : Int))] } : World σ)
    (WBuf_init rsp rsp_len) (Nat.zero_le _) (by simpa [ct_buf_init] using hcap)
  have hav : ct_buf_avail bp1 = 2 := by
    simp [ct_buf_avail, hb1.1, ht1, ct_buf_init]
  unfold ifd_ctapi_control
  dsimp only
  rw [if_neg (by omega), hparse]
  dsimp only
  rw [if_neg (by simp [hcla])]
  unfold ifd_ctapi_switch
  rw [if_pos hins, hreset, e]
  dsimp only
  rw [if_neg (by decide), if_neg (by rw [hav]; omega)]
  refine ⟨_, rfl, by simp [hav], ?_, rfl, by simp⟩
  simp only [Outcome.response, Int.toNat_ofNat]
  have ht : ct_buf_avail bp1 = bp1.tail := by simp [ct_buf_avail, hb1.1]
  rw [ht, hd1]
  simp [ct_buf_init, be16]

theorem C8_control_reset_no_resp_witness :
    ∃ out, ifd_ctapi_control ctbcs apdu_parse_short example_reader
        [0x20, 0x11, 0x01, 0x00] 4 [1, 2, 3] 3 example_world = .ok out
      ∧ out.rc = 2 ∧ out.response = [0x90, 0x00]
      ∧ out.w.drv = 1 ∧ out.w.calls = [Call.apdu_parse, Call.card_reset 0] :=
  C8_control_reset_no_resp ctbcs apdu_parse_short example_reader
    [0x20, 0x11, 0x01, 0x00] 4 [1, 2, 3] 3 example_world
    { cla := 0x20, ins := 0x11, p1 := 0x01, p2 := 0x00, le := 0 }
    rfl rfl rfl (by decide) (by decide) (by decide) (by decide)

/-- C9: for a command with a supported unit in P1 whose driver reset reports
failure, the reset handler returns `ERR_TRANS` and leaves the response buffer
exactly as it was, for every P2, timeout and message.  For a RESET command,
and for a REQUEST-ICC command whose TLV walk reaches the reset logic, the
dispatcher then returns this same code, which is negative, and the response
region is as it was; the driver reset is the only driver call. -/
theorem C9_reset_transport_error {σ : Type} (K : Consts)
    (parse : List Nat → Nat → Option ifd_iso_apdu_t) (reader : ifd_reader_t σ)
    (cmd : List Nat) (cmd_len : Nat) (rsp : List Nat) (rsp_len : Nat) (w : World σ)
    (iso : ifd_iso_apdu_t)
    (hunit : iso.p1 = K.CTBCS_UNIT_INTERFACE1 ∨ iso.p1 = K.CTBCS_UNIT_INTERFACE2)
    (hfail : (reader.card_reset w.drv
                ((iso.p1 : Int) - (K.CTBCS_UNIT_INTERFACE1 : Int)) 64).1 < 0) :
    (∀ (rbuf : ct_buf_t) (timeout : Nat) (message : Option (List Nat)),
      ifd_ctapi_reset K reader iso rbuf timeout message w
        = .ok { rc := K.ERR_TRANS, rbuf := rbuf,
                w := { drv := (reader.card_reset w.drv
                          ((iso.p1 : Int) - (K.CTBCS_UNIT_INTERFACE1 : Int)) 64).2.2,
                       calls := w.calls ++ [Call.card_reset
                          ((iso.p1 : Int) - (K.CTBCS_UNIT_INTERFACE1 : Int))] } })
    ∧ (K.ERR_TRANS < 0 → 2 ≤ rsp_len → parse cmd cmd_len = some iso →
        iso.cla = K.CTBCS_CLA →
        (iso.ins = K.CTBCS_INS_RESET
          ∨ (iso.ins ≠ K.CTBCS_INS_RESET ∧ iso.ins = K.CTBCS_INS_REQUEST_ICC
              ∧ iso.p2 >>> 4 = 0x00
              ∧ ∃ sb mb t, tlv_walk (ct_buf_avail (ct_buf_set cmd cmd_len))
                    (ct_buf_set cmd cmd_len) ((List.replicate 256 0).set 0 0) 0
                  = .ok (Walk.done sb mb t))) →
        ifd_ctapi_control K parse reader cmd cmd_len rsp rsp_len w
          = .ok { rc := K.ERR_TRANS, rsp := rsp,
                  w := { drv := (reader.card_reset w.drv
                            ((iso.p1 : Int) - (K.CTBCS_UNIT_INTERFACE1 : Int)) 64).2.2,
                         calls := w.calls ++ [Call.apdu_parse, Call.card_reset
                            ((iso.p1 : Int) - (K.CTBCS_UNIT_INTERFACE1 : Int))] } }) := by
  refine ⟨fun rbuf timeout message =>
    reset_driver_failure K reader iso rbuf timeout message w hunit hfail, ?_⟩
  intro hT hcap hparse hcla hroute
  have hsw : ifd_ctapi_switch K reader iso (ct_buf_set cmd cmd_len) (ct_buf_init rsp rsp_len)
      { w with calls := w.calls ++ [Call.apdu_parse] }
      = .ok { rc := K.ERR_TRANS, rbuf := ct_buf_init rsp rsp_len,
              w := { drv := (reader.card_reset w.drv
                        ((iso.p1 : Int) - (K.CTBCS_UNIT_INTERFACE1 : Int)) 64).2.2,
                     calls := w.calls ++ [Call.apdu_parse] ++ [Call.card_reset
                        ((iso.p1 : Int) - (K.CTBCS_UNIT_INTERFACE1 : Int))] } } := by
    unfold ifd_ctapi_switch
    rcases hroute with hins | ⟨hnr, hins, hp2, sb, mb, t, hwalk⟩
    · rw [if_pos hins]
      exact reset_driver_failure K reader iso _ _ _
        { w with calls := w.calls ++ [Call.apdu_parse] } hunit hfail
    · rw [if_neg hnr, if_pos hins]
      unfold ifd_ctapi_request_icc
      dsimp only
      rw [if_pos hp2, hwalk]
      exact reset_driver_failure K reader iso _ _ _
        { w with calls := w.calls ++ [Call.apdu_parse] } hunit hfail
  unfold ifd_ctapi_control
  dsimp only
  rw [if_neg (by omega), hparse]
  dsimp only
  rw [if_neg (by simp [hcla]), hsw]
  dsimp only
  rw [if_pos hT]
  simp [ct_buf_init]

theorem C9_reset_transport_error_witness :
    (ifd_ctapi_reset ctbcs example_reader
        { cla := 0x20, ins := 0x11, p1 := 0x02, p2 := 0x01, le := 0 }
        (ct_buf_init [1, 2, 3, 4] 4) 0 none example_world
      = .ok { rc := -10, rbuf := ct_buf_init [1, 2, 3, 4] 4,
              w := { drv := 0, calls := [Call.card_reset 1] } })
    ∧ (ifd_ctapi_control ctbcs apdu_parse_short example_reader
        [0x20, 0x11, 0x02, 0x01] 4 [1, 2, 3, 4] 4 example_world
      = .ok { rc := -10, rsp := [1, 2, 3, 4],
              w := { drv := 0, calls := [Call.apdu_parse, Call.card_reset 1] } })
    ∧ (ifd_ctapi_control ctbcs apdu_parse_short example_reader
        ([0x20, 0x12, 0x02, 0x00, 0x0f] ++ List.replicate 15 0) 20 [1, 2, 3, 4] 4 example_world
      = .ok { rc := -10, rsp := [1, 2, 3, 4],
              w := { drv := 0, calls := [Call.apdu_parse, Call.card_reset 1] } })
    ∧ ctbcs.ERR_TRANS < 0 ∧ ctbcs.ERR_TRANS ≠ ctbcs.ERR_INVALID :=
  ⟨(C9_reset_transport_error ctbcs apdu_parse_short example_reader
      [0x20, 0x11, 0x02, 0x01] 4 [1, 2, 3, 4] 4 example_world
      { cla := 0x20, ins := 0x11, p1 := 0x02, p2 := 0x01, le := 0 }
      (by decide) (by decide)).1 _ 0 none,
   (C9_reset_transport_error ctbcs apdu_parse_short example_reader
      [0x20, 0x11, 0x02, 0x01] 4 [1, 2, 3, 4] 4 example_world
      { cla := 0x20, ins := 0x11, p1 := 0x02, p2 := 0x01, le := 0 }
      (by decide) (by decide)).2 (by decide) (by decide) rfl rfl (Or.inl rfl),
   (C9_reset_transport_error ctbcs apdu_parse_short example_reader
      ([0x20, 0x12, 0x02, 0x00, 0x0f] ++ List.replicate 15 0) 20 [1, 2, 3, 4] 4 example_world
      { cla := 0x20, ins := 0x12, p1 := 0x02, p2 := 0x00, le := 0 }
      (by decide) (by decide)).2 (by decide) (by decide) rfl rfl
      (Or.inr ⟨by decide, rfl, rfl,
        { base := [0x20, 0x12, 0x02, 0x00, 0x0f] ++ List.replicate 15 0,
          head := 20, tail := 20, size := 20 },
        List.replicate 256 0, 0, rfl⟩),
   by decide, by decide⟩

/-! ## Overflow of the response buffer -/

theorem status_loop_overflow {σ : Type} (K : Consts) {cap : Nat} (reader : ifd_reader_t σ) :
    ∀ (k n : Nat) (rbuf : ct_buf_t) (w : World σ), WBuf cap rbuf → cap < rbuf.tail + k →
      (ifd_ctapi_status_loop K reader k n rbuf w).1 = false
      ∧ (ifd_ctapi_status_loop K reader k n rbuf w).2.1.size = cap
      ∧ (ifd_ctapi_status_loop K reader k n rbuf w).2.2
          = { drv := slot_queries_state reader (cap - rbuf.tail + 1) n w.drv,
              calls := w.calls
                ++ (List.range' n (cap - rbuf.tail + 1)).map Call.card_status } := by
  intro k
  induction k with
  | zero =>
    intro n rbuf w hb hlt
    have := hb.2.2.1
    omega
  | succ k ih =>
    intro n rbuf w hb hlt
    have hs : rbuf.size = cap := hb.2.1
    have ht : rbuf.tail ≤ cap := hb.2.2.1
    unfold ifd_ctapi_status_loop
    dsimp only
    by_cases hroom : rbuf.tail + 1 ≤ cap
    · have hp := ct_buf_put_some rbuf
        [(if ((if (ifd_card_status reader n w).1 < 0 then 0
                else (ifd_card_status reader n w).2.1) &&& K.IFD_CARD_PRESENT) ≠ 0
            then K.CTBCS_DATA_STATUS_CARD_CONNECT else K.CTBCS_DATA_STATUS_NOCARD) % 256] 1
        (by omega)
      rw [hp]
      dsimp only
      obtain ⟨hb1, ht1, _⟩ := WBuf_put hb (by simp) hp
      dsimp only at hb1 ht1
      obtain ⟨i1, i2, i3⟩ := ih (n + 1) _ (ifd_card_status reader n w).2.2 hb1
        (by dsimp only; omega)
      dsimp only at i3
      refine ⟨i1, i2, ?_⟩
      have e : cap - rbuf.tail + 1 = (cap - (rbuf.tail + 1) + 1) + 1 := by omega
      rw [i3, e]
      simp [slot_queries_state, ifd_card_status, List.range'_succ]
    · rw [ct_buf_put_none rbuf _ 1 (by omega) (by omega)]
      dsimp only
      have e : cap - rbuf.tail + 1 = 0 + 1 := by omega
      rw [e]
      exact ⟨rfl, hs, by simp [slot_queries_state, ifd_card_status]⟩

theorem status_overflow {σ : Type} (K : Consts) (reader : ifd_reader_t σ)
    (iso : ifd_iso_apdu_t) (rsp : List Nat) (c : Nat) (w : World σ)
    (hE : K.ERR_INVALID < 0) (hc : 2 ≤ c) (hlt : c < reader.nslots + 2) :
    ∃ bp1, ifd_ctapi_status K reader iso (ct_buf_init rsp c) w
        = { rc := 2, rbuf := bp1,
            w := { drv := slot_queries_state reader (min (c + 1) reader.nslots) 0 w.drv,
                   calls := w.calls
                     ++ (List.range (min (c + 1) reader.nslots)).map Call.card_status } }
      ∧ bp1.head = 0 ∧ bp1.tail = 2 ∧ bp1.size = c
      ∧ ct_buf_data bp1 = be16 K.CTBCS_SW_BAD_LENGTH := by
  have hb := WBuf_init rsp c
  have ht0 : (ct_buf_init rsp c).tail = 0 := rfl
  unfold ifd_ctapi_status
  dsimp only
  by_cases hN : c < reader.nslots
  · obtain ⟨i1, i2, i3⟩ := status_loop_overflow K reader reader.nslots 0 _ w hb
      (by rw [ht0]; omega)
    have hm : min (c + 1) reader.nslots = c + 1 := by omega
    rw [if_neg (by simp [i1]), error_eq K _ _ (by rw [i2]; exact hc), i3, ht0, hm,
      List.range_eq_range']
    exact ⟨_, rfl, rfl, rfl, i2, by simp [ct_buf_data, ct_buf_avail, be16]⟩
  · obtain ⟨i1, i2, i3, _, i5⟩ := status_loop_ok K reader reader.nslots 0 _ w hb
      (by rw [ht0]; omega)
    have hm : min (c + 1) reader.nslots = reader.nslots := by omega
    rw [if_pos i1, put_sw_fail K 0x9000 i2 (by rw [i3, ht0]; omega)]
    dsimp only
    rw [if_pos hE, error_eq K _ _ (by rw [i2.2.1]; exact hc), i5, hm, List.range_eq_range']
    exact ⟨_, rfl, rfl, rfl, i2.2.1, by simp [ct_buf_data, ct_buf_avail, be16]⟩

/-- C10: an overflow of the response buffer ends in exactly the bad-length
status word, with no payload left.  With a response buffer of capacity `c`,
`2 ≤ c`: on a terminal with `N` slots and `c < N + 2`, the status handler
returns 2 and leaves the two bytes of the bad-length status word as the
buffer's content, having queried the slots `0, ..., min (c + 1) N - 1` only,
that is, none after the write that failed; and for a supported unit and the
full-ATR mode, with a driver reset returning `L` (the ATR array holding at
least `L` bytes) and `c < L + 2`, the reset handler returns 2 and leaves the
same two bytes. -/
theorem C10_overflow_bad_length {σ : Type} (K : Consts) (reader : ifd_reader_t σ)
    (iso : ifd_iso_apdu_t) (rsp : List Nat) (c : Nat) (w : World σ)
    (hE : K.ERR_INVALID < 0) (hc : 2 ≤ c) :
    (c < reader.nslots + 2 →
      ∃ bp1, ifd_ctapi_status K reader iso (ct_buf_init rsp c) w
          = { rc := 2, rbuf := bp1,
              w := { drv := slot_queries_state reader (min (c + 1) reader.nslots) 0 w.drv,
                     calls := w.calls
                       ++ (List.range (min (c + 1) reader.nslots)).map Call.card_status } }
        ∧ bp1.head = 0 ∧ bp1.tail = 2 ∧ bp1.size = c
        ∧ ct_buf_data bp1 = be16 K.CTBCS_SW_BAD_LENGTH)
    ∧ (∀ (L timeout : Nat) (message : Option (List Nat)),
        (iso.p1 = K.CTBCS_UNIT_INTERFACE1 ∨ iso.p1 = K.CTBCS_UNIT_INTERFACE2) →
        iso.p2 &&& 0xF = K.CTBCS_P2_RESET_GET_ATR →
        K.CTBCS_P2_RESET_NO_RESP ≠ K.CTBCS_P2_RESET_GET_ATR →
        (reader.card_reset w.drv ((iso.p1 : Int) - (K.CTBCS_UNIT_INTERFACE1 : Int)) 64).1
          = (L : Int) →
        L ≤ (reader.card_reset w.drv
              ((iso.p1 : Int) - (K.CTBCS_UNIT_INTERFACE1 : Int)) 64).2.1.length →
        c < L + 2 →
        ∃ bp1, ifd_ctapi_reset K reader iso (ct_buf_init rsp c) timeout message w
            = .ok { rc := 2, rbuf := bp1,
                    w := { drv := (reader.card_reset w.drv
                              ((iso.p1 : Int) - (K.CTBCS_UNIT_INTERFACE1 : Int)) 64).2.2,
                           calls := w.calls ++ [Call.card_reset
                              ((iso.p1 : Int) - (K.CTBCS_UNIT_INTERFACE1 : Int))] } }
          ∧ bp1.head = 0 ∧ bp1.tail = 2 ∧ bp1.size = c
          ∧ ct_buf_data bp1 = be16 K.CTBCS_SW_BAD_LENGTH) := by
  refine ⟨status_overflow K reader iso rsp c w hE hc, ?_⟩
  intro L timeout message hunit hp2 hd hrc hatr hlt
  have hok : 0 ≤ (reader.card_reset w.drv
      ((iso.p1 : Int) - (K.CTBCS_UNIT_INTERFACE1 : Int)) 64).1 := by
    rw [hrc]; exact Int.ofNat_nonneg L
  rw [reset_get_atr K reader iso _ timeout message w hunit hok hp2 hd, hrc, Int.toNat_ofNat]
  exact reset_send_overflow K _ L _ (WBuf_init rsp c) hatr
    (by simpa [ct_buf_init] using hlt) hc hE

theorem C10_overflow_bad_length_witness :
    (∃ bp1, ifd_ctapi_status ctbcs example_reader
          { cla := 0x20, ins := 0x13, p1 := 0x00, p2 := 0x80, le := 2 }
          (ct_buf_init [0, 0, 0] 3) example_world
        = { rc := 2, rbuf := bp1,
            w := { drv := 0, calls := [Call.card_status 0, Call.card_status 1] } }
      ∧ bp1.head = 0 ∧ bp1.tail = 2 ∧ bp1.size = 3 ∧ ct_buf_data bp1 = [0x67, 0x00])
    ∧ (∃ bp1, ifd_ctapi_reset ctbcs example_reader
          { cla := 0x20, ins := 0x11, p1 := 0x01, p2 := 0x01, le := 4 }
          (ct_buf_init [0, 0, 0] 3) 0 none example_world
        = .ok { rc := 2, rbuf := bp1,
                w := { drv := 1, calls := [Call.card_reset 0] } }
      ∧ bp1.head = 0 ∧ bp1.tail = 2 ∧ bp1.size = 3 ∧ ct_buf_data bp1 = [0x67, 0x00]) :=
  ⟨(C10_overflow_bad_length ctbcs example_reader
      { cla := 0x20, ins := 0x13, p1 := 0x00, p2 := 0x80, le := 2 } [0, 0, 0] 3 example_world
      (by decide) (by decide)).1 (by decide),
   (C10_overflow_bad_length ctbcs example_reader
      { cla := 0x20, ins := 0x11, p1 := 0x01, p2 := 0x01, le := 4 } [0, 0, 0] 3 example_world
      (by decide) (by decide)).2 4 0 none (by decide) (by decide) (by decide) rfl
      (by decide) (by decide)⟩

/-! ## Every run returns

The TLV walk never runs out of the fuel it is given and never leaves the
message array; with a driver that keeps its contract no run ends in a fault. -/

theorem ct_buf_get_some {bp bp1 : ct_buf_t} {n : Nat} {v : List Nat}
    (h : ct_buf_get bp n = some (v, bp1)) :
    n ≤ ct_buf_avail bp ∧ ct_buf_avail bp1 = ct_buf_avail bp - n ∧ v.length ≤ n := by
  unfold ct_buf_get at h
  split at h
  · exact absurd h (by simp)
  · rename_i hn
    have e := Option.some.inj h
    have e1 : v = _ := (congrArg Prod.fst e).symm
    have e2 : bp1 = _ := (congrArg Prod.snd e).symm
    subst e1 e2
    refine ⟨by omega, ?_, ?_⟩
    · unfold ct_buf_avail at *
      dsimp only
      omega
    · simp

theorem ct_buf_get_none {bp : ct_buf_t} {n : Nat} (h : ct_buf_get bp n = none) :
    ct_buf_avail bp < n := by
  unfold ct_buf_get at h
  split at h
  · omega
  · exact absurd h (by simp)

theorem msgbuf_store_length (msgbuf v : List Nat) (len : Nat)
    (hm : msgbuf.length = 256) (hv : v.length ≤ len) (hl : len < 256) :
    ((mem_write msgbuf 0 v).set len 0).length = 256 := by
  simp [mem_write]
  omega

theorem tlv_walk_ok : ∀ (fuel : Nat) (sbuf : ct_buf_t) (msgbuf : List Nat) (timeout : Nat),
    ct_buf_avail sbuf ≤ fuel → msgbuf.length = 256 →
    ∃ r, tlv_walk fuel sbuf msgbuf timeout = .ok r := by
  intro fuel
  induction fuel with
  | zero =>
    intro sbuf msgbuf timeout hf _
    unfold tlv_walk
    rw [if_pos (by omega)]
    exact ⟨_, rfl⟩
  | succ fuel ih =>
    intro sbuf msgbuf timeout hf hm
    unfold tlv_walk
    split_ifs with h0
    · exact ⟨_, rfl⟩
    · split
      · rename_i hz
        exact absurd hz (Nat.succ_ne_zero fuel)
      · rename_i fuel1 hs
        have hfe : fuel1 = fuel := (Nat.succ.inj hs).symm
        subst hfe
        split
        · exact ⟨_, rfl⟩
        · rename_i t sbuf1 hg1
          obtain ⟨_, ha1, _⟩ := ct_buf_get_some hg1
          split
          · exact ⟨_, rfl⟩
          · rename_i l sbuf2 hg2
            obtain ⟨_, ha2, _⟩ := ct_buf_get_some hg2
            have hlen : l.headD 0 % 256 < 256 := Nat.mod_lt _ (by decide)
            have hfuel2 : ct_buf_avail sbuf2 ≤ fuel1 := by omega
            dsimp only
            split_ifs with hshort h50 hoob h80 hne
            · exact ⟨_, rfl⟩
            · omega
            · split
              · exact ih _ _ _ hfuel2 (by simpa using hm)
              · rename_i v sbuf3 hg3
                obtain ⟨_, ha3, hv⟩ := ct_buf_get_some hg3
                exact ih _ _ _ (by omega) (msgbuf_store_length msgbuf v _ hm hv hlen)
            · exact ⟨_, rfl⟩
            · split
              · exact ih _ _ _ hfuel2 hm
              · rename_i v sbuf3 hg3
                obtain ⟨_, ha3, _⟩ := ct_buf_get_some hg3
                exact ih _ _ _ (by omega) hm
            · split
              · exact ih _ _ _ hfuel2 hm
              · rename_i v sbuf3 hg3
                obtain ⟨_, ha3, _⟩ := ct_buf_get_some hg3
                exact ih _ _ _ (by omega) hm

theorem reset_send_returns {σ : Type} (K : Consts) (rbuf : ct_buf_t) (atr : List Nat)
    (atrlen : Nat) (w : World σ) (hlen : atrlen ≤ atr.length) :
    ∃ h, ifd_ctapi_reset_send K rbuf atr atrlen w = .ok h := by
  unfold ifd_ctapi_reset_send
  rw [if_neg (by omega)]
  split
  · exact ⟨_, rfl⟩
  · dsimp only
    split_ifs
    · exact ⟨_, rfl⟩
    · exact ⟨_, rfl⟩

theorem reset_returns {σ : Type} (K : Consts) (reader : ifd_reader_t σ)
    (iso : ifd_iso_apdu_t) (rbuf : ct_buf_t) (timeout : Nat) (message : Option (List Nat))
    (w : World σ) (hdrv : DriverContract reader) :
    ∃ h, ifd_ctapi_reset K reader iso rbuf timeout message w = .ok h := by
  unfold ifd_ctapi_reset
  dsimp only
  split_ifs with hu hneg
  · exact ⟨_, rfl⟩
  · exact reset_send_returns K _ _ _ _ (Nat.zero_le _)
  · refine reset_send_returns K _ _ _ _ ?_
    have := hdrv w.drv ((iso.p1 : Int) - (K.CTBCS_UNIT_INTERFACE1 : Int))
    simp only [ifd_card_reset] at hneg ⊢
    omega
  · exact ⟨_, rfl⟩
  · exact reset_send_returns K _ _ _ _ (Nat.zero_le _)
  · exact ⟨_, rfl⟩

theorem request_icc_returns {σ : Type} (K : Consts) (reader : ifd_reader_t σ)
    (iso : ifd_iso_apdu_t) (sbuf rbuf : ct_buf_t) (w : World σ)
    (hdrv : DriverContract reader) :
    ∃ h, ifd_ctapi_request_icc K reader iso sbuf rbuf w = .ok h := by
  unfold ifd_ctapi_request_icc
  dsimp only
  split_ifs
  · obtain ⟨r, hr⟩ := tlv_walk_ok (ct_buf_avail sbuf) sbuf ((List.replicate 256 0).set 0 0) 0
      (le_refl _) (by rw [List.length_set, List.length_replicate])
    rw [hr]
    cases r with
    | done sb mb t => exact reset_returns K reader iso rbuf _ _ w hdrv
    | bad_length sb mb t => exact ⟨_, rfl⟩
  · exact ⟨_, rfl⟩
  · exact ⟨_, rfl⟩

theorem control_returns {σ : Type} (K : Consts)
    (parse : List Nat → Nat → Option ifd_iso_apdu_t) (reader : ifd_reader_t σ)
    (cmd : List Nat) (cmd_len : Nat) (rsp : List Nat) (rsp_len : Nat) (w : World σ)
    (hdrv : DriverContract reader) :
    ∃ out, ifd_ctapi_control K parse reader cmd cmd_len rsp rsp_len w = .ok out := by
  unfold ifd_ctapi_control
  dsimp only
  split_ifs
  · exact ⟨_, rfl⟩
  · split
    · exact ⟨_, rfl⟩
    · rename_i iso _
      split_ifs
      · exact ⟨_, rfl⟩
      · have hsw : ∃ h, ifd_ctapi_switch K reader iso (ct_buf_set cmd cmd_len)
            (ct_buf_init rsp rsp_len) { w with calls := w.calls ++ [Call.apdu_parse] }
            = .ok h := by
          unfold ifd_ctapi_switch
          split_ifs
          · exact reset_returns K reader iso _ _ _ _ hdrv
          · exact request_icc_returns K reader iso _ _ _ hdrv
          · exact ⟨_, rfl⟩
          · exact ⟨_, rfl⟩
        obtain ⟨h, e⟩ := hsw
        rw [e]
        dsimp only
        split_ifs
        · exact ⟨_, rfl⟩
        · exact ⟨_, rfl⟩
        · exact ⟨_, rfl⟩

/-! ## The TLV walk, one entry at a time -/

theorem ct_buf_data_length {bp : ct_buf_t} (hv : VBuf bp) :
    (ct_buf_data bp).length = ct_buf_avail bp := by
  obtain ⟨h1, h2⟩ := hv
  simp only [ct_buf_data, ct_buf_avail, List.length_take, List.length_drop]
  omega

theorem ct_buf_get_data {bp : ct_buf_t} (n : Nat) (hv : VBuf bp)
    (hn : n ≤ (ct_buf_data bp).length) :
    ct_buf_get bp n = some ((ct_buf_data bp).take n, { bp with head := bp.head + n })
      ∧ VBuf { bp with head := bp.head + n }
      ∧ ct_buf_data { bp with head := bp.head + n } = (ct_buf_data bp).drop n := by
  have hl := ct_buf_data_length hv
  obtain ⟨h1, h2⟩ := hv
  have ha : n ≤ bp.tail - bp.head := by
    rw [hl] at hn
    exact hn
  refine ⟨?_, ⟨by dsimp only; omega, h2⟩, ?_⟩
  · unfold ct_buf_get
    rw [if_neg (by unfold ct_buf_avail; omega)]
    simp only [ct_buf_data, ct_buf_avail, List.take_take]
    rw [Nat.min_eq_left ha]
  · simp only [ct_buf_data, ct_buf_avail, List.drop_take, List.drop_drop]
    have e1 : bp.tail - (bp.head + n) = bp.tail - bp.head - n := by omega
    rw [e1]

theorem tlv_walk_step (fuel : Nat) {sbuf : ct_buf_t} (msgbuf : List Nat) (timeout : Nat)
    (t l : Nat) (rest : List Nat) (hv : VBuf sbuf) (hd : ct_buf_data sbuf = t :: l :: rest) :
    tlv_walk (fuel + 1) sbuf msgbuf timeout
      = if rest.length < l % 256 then
          .ok (Walk.bad_length { sbuf with head := sbuf.head + 1 + 1 } msgbuf timeout)
        else if t % 256 = 0x50 then
          if msgbuf.length < l % 256 + 1 then .error Fault.out_of_bounds
          else
            tlv_walk fuel { sbuf with head := sbuf.head + 1 + 1 + l % 256 }
              ((mem_write msgbuf 0 (rest.take (l % 256))).set (l % 256) 0) timeout
        else if t % 256 = 0x80 then
          if l % 256 ≠ 1 then
            .ok (Walk.bad_length { sbuf with head := sbuf.head + 1 + 1 } msgbuf timeout)
          else
            tlv_walk fuel { sbuf with head := sbuf.head + 1 + 1 + 1 } msgbuf
              ((rest.take 1).headD 0 % 256)
        else
          tlv_walk fuel { sbuf with head := sbuf.head + 1 + 1 + l % 256 } msgbuf timeout := by
  have ha : ct_buf_avail sbuf ≠ 0 := by
    rw [← ct_buf_data_length hv, hd]
    simp
  obtain ⟨g1, v1, d1⟩ := ct_buf_get_data 1 hv (by rw [hd]; simp)
  rw [hd] at g1 d1
  obtain ⟨g2, v2, d2⟩ := ct_buf_get_data 1 v1 (by rw [d1]; simp)
  rw [d1] at g2 d2
  simp only [List.take_succ_cons, List.take_zero, List.drop_succ_cons, List.drop_zero] at g1 g2 d2
  have hav2 : ct_buf_avail { sbuf with head := sbuf.head + 1 + 1 } = rest.length := by
    rw [← ct_buf_data_length v2, d2]
  rw [tlv_walk, if_neg ha]
  dsimp only
  rw [g1]
  dsimp only
  rw [g2]
  dsimp only
  rw [hav2]
  simp only [List.headD_cons]
  by_cases hlong : rest.length < l % 256
  · rw [if_pos hlong, if_pos hlong]
  · rw [if_neg hlong, if_neg hlong]
    have hfit : l % 256 ≤ (ct_buf_data { sbuf with head := sbuf.head + 1 + 1 }).length := by
      rw [d2]; omega
    obtain ⟨g3, _, _⟩ := ct_buf_get_data (l % 256) v2 hfit
    dsimp only at g3
    rw [d2] at g3
    by_cases h50 : t % 256 = 0x50
    · rw [if_pos h50, if_pos h50, g3]
    · rw [if_neg h50, if_neg h50]
      by_cases h80 : t % 256 = 0x80
      · rw [if_pos h80, if_pos h80]
        by_cases h1 : l % 256 = 1
        · have hfit1 : 1 ≤ (ct_buf_data { sbuf with head := sbuf.head + 1 + 1 }).length := by
            rw [d2]; omega
          obtain ⟨g4, _, _⟩ := ct_buf_get_data 1 v2 hfit1
          dsimp only at g4
          rw [d2] at g4
          rw [if_neg (by simp [h1]), if_neg (by simp [h1]), g4]
        · rw [if_pos h1, if_pos h1]
      · rw [if_neg h80, if_neg h80, g3]

theorem tlv_walk_truncated (fuel : Nat) {sbuf : ct_buf_t} (msgbuf : List Nat) (timeout : Nat)
    (t : Nat) (hv : VBuf sbuf) (hd : ct_buf_data sbuf = [t]) :
    tlv_walk (fuel + 1) sbuf msgbuf timeout
      = .ok (Walk.bad_length { sbuf with head := sbuf.head + 1 } msgbuf timeout) := by
  have ha : ct_buf_avail sbuf ≠ 0 := by
    rw [← ct_buf_data_length hv, hd]
    simp
  obtain ⟨g1, v1, d1⟩ := ct_buf_get_data 1 hv (by rw [hd]; simp)
  rw [hd] at g1 d1
  have hav1 : ct_buf_avail { sbuf with head := sbuf.head + 1 } = 0 := by
    rw [← ct_buf_data_length v1, d1]
    simp
  have g2 : ct_buf_get { sbuf with head := sbuf.head + 1 } 1 = none := by
    unfold ct_buf_get
    rw [if_pos (by rw [hav1]; decide)]
  rw [tlv_walk, if_neg ha]
  dsimp only
  rw [g1]
  dsimp only
  rw [g2]

theorem VBuf_advance {sbuf : ct_buf_t} (k h1 : Nat) (hv : VBuf sbuf)
    (hk : k ≤ (ct_buf_data sbuf).length) (hh : h1 = sbuf.head + k) :
    VBuf { sbuf with head := h1 }
      ∧ ct_buf_data { sbuf with head := h1 } = (ct_buf_data sbuf).drop k := by
  subst hh
  exact (ct_buf_get_data k hv hk).2

theorem walk_malformed : ∀ (bytes : List Nat), MeetsMalformed bytes →
    ∀ (fuel : Nat) (sbuf : ct_buf_t) (msgbuf : List Nat) (timeout : Nat),
      VBuf sbuf → ct_buf_data sbuf = bytes → bytes.length ≤ 2 * fuel → msgbuf.length = 256 →
      ∃ sb mb t, tlv_walk fuel sbuf msgbuf timeout = .ok (Walk.bad_length sb mb t) := by
  intro bytes hm
  induction hm with
  | truncated t =>
    intro fuel sbuf msgbuf timeout hv hd hf _
    obtain ⟨f, rfl⟩ : ∃ f, fuel = f + 1 := ⟨fuel - 1, by simp at hf; omega⟩
    exact ⟨_, _, _, tlv_walk_truncated f msgbuf timeout t hv hd⟩
  | too_long t l rest hlong =>
    intro fuel sbuf msgbuf timeout hv hd hf _
    obtain ⟨f, rfl⟩ : ∃ f, fuel = f + 1 := ⟨fuel - 1, by simp at hf; omega⟩
    rw [tlv_walk_step f msgbuf timeout t l rest hv hd, if_pos hlong]
    exact ⟨_, _, _, rfl⟩
  | bad_timeout t l rest h80 hne =>
    intro fuel sbuf msgbuf timeout hv hd hf _
    obtain ⟨f, rfl⟩ : ∃ f, fuel = f + 1 := ⟨fuel - 1, by simp at hf; omega⟩
    rw [tlv_walk_step f msgbuf timeout t l rest hv hd]
    by_cases hlong : rest.length < l % 256
    · rw [if_pos hlong]
      exact ⟨_, _, _, rfl⟩
    · rw [if_neg hlong, if_neg (by rw [h80]; decide), if_pos h80, if_pos hne]
      exact ⟨_, _, _, rfl⟩
  | later t l rest hfit hwf _ ih =>
    intro fuel sbuf msgbuf timeout hv hd hf hmsg
    obtain ⟨f, rfl⟩ : ∃ f, fuel = f + 1 := ⟨fuel - 1, by simp at hf; omega⟩
    have hlen : l % 256 < 256 := Nat.mod_lt _ (by decide)
    have hdl : (ct_buf_data sbuf).length = rest.length + 2 := by rw [hd]; simp
    have hrest : (ct_buf_data sbuf).drop (l % 256 + 2) = rest.drop (l % 256) := by
      rw [hd]; simp
    obtain ⟨va, da⟩ := VBuf_advance (l % 256 + 2) (sbuf.head + 1 + 1 + l % 256) hv
      (by omega) (by omega)
    rw [hrest] at da
    have hfa : (rest.drop (l % 256)).length ≤ 2 * f := by
      simp at hf
      simp
      omega
    rw [tlv_walk_step f msgbuf timeout t l rest hv hd, if_neg (by omega)]
    by_cases h50 : t % 256 = 0x50
    · rw [if_pos h50, if_neg (by omega)]
      exact ih f _ _ timeout va da hfa
        (msgbuf_store_length msgbuf _ _ hmsg (by simp) hlen)
    · rw [if_neg h50]
      by_cases h80 : t % 256 = 0x80
      · have h1 : l % 256 = 1 := by
          by_contra hcon
          exact hwf ⟨h80, hcon⟩
        rw [if_pos h80, if_neg (by simp [h1])]
        rw [h1] at va da hfa ih
        exact ih f _ _ _ va da hfa hmsg
      · rw [if_neg h80]
        exact ih f _ _ timeout va da hfa hmsg

/-- C11: in `ifd_ctapi_request_icc` with the high nibble of P2 equal to 0, for
every view buffer whose bytes left to walk contain a malformed entry (a tag
with no length byte, a declared length beyond the bytes remaining after the
length byte, or tag 0x80 with a length other than 1), the handler returns 2,
the response buffer holds exactly the two bytes of the bad-length status word,
and the world is as it was: the driver reset is not invoked. -/
theorem C11_request_icc_malformed_tlv {σ : Type} (K : Consts) (reader : ifd_reader_t σ)
    (iso : ifd_iso_apdu_t) (sbuf rbuf : ct_buf_t) (w : World σ)
    (hp2 : iso.p2 >>> 4 = 0x00) (hv : VBuf sbuf)
    (hbad : MeetsMalformed (ct_buf_data sbuf)) (hc : 2 ≤ rbuf.size) :
    ifd_ctapi_request_icc K reader iso sbuf rbuf w
        = .ok { rc := 2,
                rbuf := { base := be16 K.CTBCS_SW_BAD_LENGTH ++ rbuf.base.drop 2,
                          head := 0, tail := 2, size := rbuf.size },
                w := w }
      ∧ ct_buf_data { base := be16 K.CTBCS_SW_BAD_LENGTH ++ rbuf.base.drop 2,
                      head := 0, tail := 2, size := rbuf.size }
          = be16 K.CTBCS_SW_BAD_LENGTH := by
  obtain ⟨sb, mb, t, hw⟩ := walk_malformed _ hbad (ct_buf_avail sbuf) sbuf
    ((List.replicate 256 0).set 0 0) 0 hv rfl
    (by rw [ct_buf_data_length hv]; omega)
    (by rw [List.length_set, List.length_replicate])
  refine ⟨?_, by simp [ct_buf_data, ct_buf_avail, be16]⟩
  unfold ifd_ctapi_request_icc
  dsimp only
  rw [if_pos hp2, hw]
  dsimp only
  rw [error_eq K rbuf _ hc]

theorem C11_request_icc_malformed_tlv_witness :
    ifd_ctapi_request_icc ctbcs example_reader
        { cla := 0x20, ins := 0x12, p1 := 0x01, p2 := 0x00, le := 0 }
        (ct_buf_set [0x80, 0x01, 0x1e, 0x50, 0x05, 0x41] 6) (ct_buf_init [1, 2, 3, 4] 4)
        example_world
      = .ok { rc := 2, rbuf := { base := [0x67, 0x00, 3, 4], head := 0, tail := 2, size := 4 },
              w := { drv := 0, calls := [] } } :=
  (C11_request_icc_malformed_tlv ctbcs example_reader
    { cla := 0x20, ins := 0x12, p1 := 0x01, p2 := 0x00, le := 0 }
    (ct_buf_set [0x80, 0x01, 0x1e, 0x50, 0x05, 0x41] 6) (ct_buf_init [1, 2, 3, 4] 4)
    example_world rfl ⟨by decide, by decide⟩
    (MeetsMalformed.later 0x80 0x01 [0x1e, 0x50, 0x05, 0x41] (by decide) (by decide)
      (MeetsMalformed.too_long 0x50 0x05 [0x41] (by decide)))
    (by decide)).1

/-! ## The request-card handler on the commands the dispatcher hands it -/

theorem request_icc_dataless_header {σ : Type} (K : Consts) (reader : ifd_reader_t σ)
    (iso : ifd_iso_apdu_t) (c0 c1 c2 c3 : Nat) (rbuf : ct_buf_t) (w : World σ)
    (hp2 : iso.p2 >>> 4 = 0x00) (hins : 2 < c1 % 256) (hc : 2 ≤ rbuf.size) :
    ifd_ctapi_request_icc K reader iso (ct_buf_set [c0, c1, c2, c3] 4) rbuf w
      = .ok { rc := 2,
              rbuf := { base := be16 K.CTBCS_SW_BAD_LENGTH ++ rbuf.base.drop 2,
                        head := 0, tail := 2, size := rbuf.size },
              w := w } := by
  have hv : VBuf (ct_buf_set [c0, c1, c2, c3] 4) := ⟨Nat.zero_le _, Nat.le_refl _⟩
  have hd : ct_buf_data (ct_buf_set [c0, c1, c2, c3] 4) = [c0, c1, c2, c3] := rfl
  have hbad : MeetsMalformed (ct_buf_data (ct_buf_set [c0, c1, c2, c3] 4)) := by
    rw [hd]
    exact MeetsMalformed.too_long c0 c1 [c2, c3] hins
  obtain ⟨sb, mb, t, hw⟩ := walk_malformed _ hbad 4 (ct_buf_set [c0, c1, c2, c3] 4)
    ((List.replicate 256 0).set 0 0) 0 hv rfl (by rw [hd]; simp)
    (by rw [List.length_set, List.length_replicate])
  have hav : ct_buf_avail (ct_buf_set [c0, c1, c2, c3] 4) = 4 := rfl
  unfold ifd_ctapi_request_icc
  dsimp only
  rw [if_pos hp2, hav, hw]
  dsimp only
  rw [error_eq K rbuf _ hc]

theorem request_icc_rejected_nibble {σ : Type} (K : Consts) (reader : ifd_reader_t σ)
    (iso : ifd_iso_apdu_t) (sbuf rbuf : ct_buf_t) (w : World σ)
    (hp2 : iso.p2 >>> 4 ≠ 0x00) (hc : 2 ≤ rbuf.size) :
    ifd_ctapi_request_icc K reader iso sbuf rbuf w
      = .ok { rc := 2,
              rbuf := { base := be16 K.CTBCS_SW_BAD_PARAMS ++ rbuf.base.drop 2,
                        head := 0, tail := 2, size := rbuf.size },
              w := w } := by
  unfold ifd_ctapi_request_icc
  dsimp only
  rw [if_neg hp2]
  split_ifs
  · rw [error_eq K rbuf _ hc]
  · rw [error_eq K rbuf _ hc]

/-- C12, the code at the failing input: for the data-less four-byte command
CLA, REQUEST-ICC, unit 1, P2 = 0x00, `ifd_ctapi_control` walks the header bytes
as TLV entries (tag 0x20, length 0x12), answers bad-length and makes no driver
call, whereas the reset handler on the same header resets slot 0 and answers
0x90, 0x00. -/
theorem C12_request_icc_walks_the_header :
    ifd_ctapi_control ctbcs apdu_parse_short example_reader [0x20, 0x12, 0x01, 0x00] 4
        (List.replicate 4 0) 4 example_world
      = .ok { rc := 2, rsp := [0x67, 0x00, 0, 0],
              w := { drv := 0, calls := [Call.apdu_parse] } }
    ∧ ifd_ctapi_reset ctbcs example_reader
        { cla := 0x20, ins := 0x12, p1 := 0x01, p2 := 0x00, le := 0 }
        (ct_buf_init (List.replicate 4 0) 4) 0 none
        { drv := 0, calls := [Call.apdu_parse] }
      = .ok { rc := 0,
              rbuf := { base := [0x90, 0x00, 0, 0], head := 0, tail := 2, size := 4 },
              w := { drv := 1, calls := [Call.apdu_parse, Call.card_reset 0] } } :=
  ⟨rfl, rfl⟩

/-- C13, the code at the failing input: for a REQUEST-ICC command with P2 =
0xF0 (high nibble 0xF, no message) `ifd_ctapi_control` answers bad-params and
makes no driver call, for the four-byte command as for a twenty-byte one;
whereas the same twenty-byte command with P2 = 0x00 gets through the walk to
the reset logic, resets slot 0 and is answered 0x90, 0x00. -/
theorem C13_request_icc_no_message_nibble_rejected :
    ifd_ctapi_control ctbcs apdu_parse_short example_reader [0x20, 0x12, 0x01, 0xf0] 4
        (List.replicate 4 0) 4 example_world
      = .ok { rc := 2, rsp := [0x6a, 0x00, 0, 0],
              w := { drv := 0, calls := [Call.apdu_parse] } }
    ∧ ifd_ctapi_control ctbcs apdu_parse_short example_reader
        ([0x20, 0x12, 0x01, 0xf0, 0x0f] ++ List.replicate 15 0) 20
        (List.replicate 4 0) 4 example_world
      = .ok { rc := 2, rsp := [0x6a, 0x00, 0, 0],
              w := { drv := 0, calls := [Call.apdu_parse] } }
    ∧ ifd_ctapi_control ctbcs apdu_parse_short example_reader
        ([0x20, 0x12, 0x01, 0x00, 0x0f] ++ List.replicate 15 0) 20
        (List.replicate 4 0) 4 example_world
      = .ok { rc := 2, rsp := [0x90, 0x00, 0, 0],
              w := { drv := 1, calls := [Call.apdu_parse, Call.card_reset 0] } } :=
  ⟨rfl, rfl, rfl⟩

/-! ## The reset handler: unit and response-shape selection -/

theorem reset_send_world {σ : Type} (K : Consts) (rbuf : ct_buf_t) (atr : List Nat)
    (atrlen : Nat) (w : World σ) (hlen : atrlen ≤ atr.length) :
    ∃ h, ifd_ctapi_reset_send K rbuf atr atrlen w = .ok h ∧ h.w = w := by
  unfold ifd_ctapi_reset_send
  rw [if_neg (by omega)]
  split
  · exact ⟨_, rfl, rfl⟩
  · dsimp only
    split_ifs
    · exact ⟨_, rfl, rfl⟩
    · exact ⟨_, rfl, rfl⟩

theorem reset_world {σ : Type} (K : Consts) (reader : ifd_reader_t σ)
    (iso : ifd_iso_apdu_t) (rbuf : ct_buf_t) (timeout : Nat) (message : Option (List Nat))
    (w : World σ) (hdrv : DriverContract reader)
    (hunit : iso.p1 = K.CTBCS_UNIT_INTERFACE1 ∨ iso.p1 = K.CTBCS_UNIT_INTERFACE2) :
    ∃ h, ifd_ctapi_reset K reader iso rbuf timeout message w = .ok h
      ∧ h.w = { drv := (reader.card_reset w.drv
                  ((iso.p1 : Int) - (K.CTBCS_UNIT_INTERFACE1 : Int)) 64).2.2,
                calls := w.calls ++ [Call.card_reset
                  ((iso.p1 : Int) - (K.CTBCS_UNIT_INTERFACE1 : Int))] } := by
  unfold ifd_ctapi_reset
  dsimp only
  rw [if_pos hunit]
  split_ifs with hneg
  · exact ⟨_, rfl, rfl⟩
  · exact reset_send_world K _ _ _ _ (Nat.zero_le _)
  · refine reset_send_world K _ _ _ _ ?_
    have := hdrv w.drv ((iso.p1 : Int) - (K.CTBCS_UNIT_INTERFACE1 : Int))
    simp only [ifd_card_reset] at hneg ⊢
    omega
  · exact ⟨_, rfl, rfl⟩
  · exact reset_send_world K _ _ _ _ (Nat.zero_le _)

theorem reset_bad_unit {σ : Type} (K : Consts) (reader : ifd_reader_t σ)
    (iso : ifd_iso_apdu_t) (rbuf : ct_buf_t) (timeout : Nat) (message : Option (List Nat))
    (w : World σ) (h1 : iso.p1 ≠ K.CTBCS_UNIT_INTERFACE1)
    (h2 : iso.p1 ≠ K.CTBCS_UNIT_INTERFACE2) (hc : 2 ≤ rbuf.size) :
    ifd_ctapi_reset K reader iso rbuf timeout message w
      = .ok { rc := 2,
              rbuf := { base := be16 K.CTBCS_SW_BAD_PARAMS ++ rbuf.base.drop 2,
                        head := 0, tail := 2, size := rbuf.size },
              w := w } := by
  unfold ifd_ctapi_reset
  dsimp only
  rw [if_neg (by simp [h1, h2]), error_eq K rbuf _ hc]

theorem reset_get_hist {σ : Type} (K : Consts) (reader : ifd_reader_t σ)
    (iso : ifd_iso_apdu_t) (rbuf : ct_buf_t) (timeout : Nat) (message : Option (List Nat))
    (w : World σ)
    (hunit : iso.p1 = K.CTBCS_UNIT_INTERFACE1 ∨ iso.p1 = K.CTBCS_UNIT_INTERFACE2)
    (hok : 0 ≤ (reader.card_reset w.drv ((iso.p1 : Int) - (K.CTBCS_UNIT_INTERFACE1 : Int)) 64).1)
    (hp2 : iso.p2 &&& 0xF = K.CTBCS_P2_RESET_GET_HIST)
    (hd1 : K.CTBCS_P2_RESET_GET_HIST ≠ K.CTBCS_P2_RESET_NO_RESP)
    (hd2 : K.CTBCS_P2_RESET_GET_HIST ≠ K.CTBCS_P2_RESET_GET_ATR)
    (hc : 2 ≤ rbuf.size) :
    ifd_ctapi_reset K reader iso rbuf timeout message w
      = .ok { rc := 2,
              rbuf := { base := be16 K.CTBCS_SW_BAD_PARAMS ++ rbuf.base.drop 2,
                        head := 0, tail := 2, size := rbuf.size },
              w := { drv := (reader.card_reset w.drv
                        ((iso.p1 : Int) - (K.CTBCS_UNIT_INTERFACE1 : Int)) 64).2.2,
                     calls := w.calls ++ [Call.card_reset
                        ((iso.p1 : Int) - (K.CTBCS_UNIT_INTERFACE1 : Int))] } } := by
  unfold ifd_ctapi_reset
  dsimp only
  rw [if_pos hunit, if_neg (by simpa [ifd_card_reset] using hok),
    if_neg (by rw [hp2]; exact hd1), if_neg (by rw [hp2]; exact hd2), if_pos hp2,
    error_eq K rbuf _ hc]
  rfl

theorem reset_undefined_shape {σ : Type} (K : Consts) (reader : ifd_reader_t σ)
    (iso : ifd_iso_apdu_t) (rbuf : ct_buf_t) (timeout : Nat) (message : Option (List Nat))
    (w : World σ)
    (hunit : iso.p1 = K.CTBCS_UNIT_INTERFACE1 ∨ iso.p1 = K.CTBCS_UNIT_INTERFACE2)
    (hok : 0 ≤ (reader.card_reset w.drv ((iso.p1 : Int) - (K.CTBCS_UNIT_INTERFACE1 : Int)) 64).1)
    (h1 : iso.p2 &&& 0xF ≠ K.CTBCS_P2_RESET_NO_RESP)
    (h2 : iso.p2 &&& 0xF ≠ K.CTBCS_P2_RESET_GET_ATR)
    (h3 : iso.p2 &&& 0xF ≠ K.CTBCS_P2_RESET_GET_HIST) :
    ifd_ctapi_reset K reader iso rbuf timeout message w
      = ifd_ctapi_reset_send K rbuf
          (reader.card_reset w.drv ((iso.p1 : Int) - (K.CTBCS_UNIT_INTERFACE1 : Int)) 64).2.1 0
          { drv := (reader.card_reset w.drv
                      ((iso.p1 : Int) - (K.CTBCS_UNIT_INTERFACE1 : Int)) 64).2.2,
            calls := w.calls ++ [Call.card_reset
                      ((iso.p1 : Int) - (K.CTBCS_UNIT_INTERFACE1 : Int))] } := by
  unfold ifd_ctapi_reset
  dsimp only
  rw [if_pos hunit, if_neg (by simpa [ifd_card_reset] using hok), if_neg h1, if_neg h2,
    if_neg h3]
  rfl

/-- C14: in `ifd_ctapi_reset`, with the second unit constant one above the
first, P1 equal to the first supported unit makes the handler reset driver
slot 0 and P1 equal to the second one driver slot 1; this reset is the only
call made (the driver keeping its contract on the ATR length).  For every
other P1 the handler returns 2 with exactly the two bytes of the bad-params
status word in the response buffer and the world as it was: the driver reset
is not invoked. -/
theorem C14_reset_unit_selection {σ : Type} (K : Consts) (reader : ifd_reader_t σ)
    (iso : ifd_iso_apdu_t) (rbuf : ct_buf_t) (timeout : Nat) (message : Option (List Nat))
    (w : World σ)
    (h12 : K.CTBCS_UNIT_INTERFACE2 = K.CTBCS_UNIT_INTERFACE1 + 1) :
    (iso.p1 = K.CTBCS_UNIT_INTERFACE1 → DriverContract reader →
      ∃ h, ifd_ctapi_reset K reader iso rbuf timeout message w = .ok h
        ∧ h.w = { drv := (reader.card_reset w.drv 0 64).2.2,
                  calls := w.calls ++ [Call.card_reset 0] })
    ∧ (iso.p1 = K.CTBCS_UNIT_INTERFACE2 → DriverContract reader →
      ∃ h, ifd_ctapi_reset K reader iso rbuf timeout message w = .ok h
        ∧ h.w = { drv := (reader.card_reset w.drv 1 64).2.2,
                  calls := w.calls ++ [Call.card_reset 1] })
    ∧ (iso.p1 ≠ K.CTBCS_UNIT_INTERFACE1 → iso.p1 ≠ K.CTBCS_UNIT_INTERFACE2 →
        2 ≤ rbuf.size →
        ifd_ctapi_reset K reader iso rbuf timeout message w
            = .ok { rc := 2,
                    rbuf := { base := be16 K.CTBCS_SW_BAD_PARAMS ++ rbuf.base.drop 2,
                              head := 0, tail := 2, size := rbuf.size },
                    w := w }
          ∧ ct_buf_data { base := be16 K.CTBCS_SW_BAD_PARAMS ++ rbuf.base.drop 2,
                          head := 0, tail := 2, size := rbuf.size }
              = be16 K.CTBCS_SW_BAD_PARAMS) := by
  refine ⟨?_, ?_, ?_⟩
  · intro hp1 hdrv
    obtain ⟨h, e, hw⟩ := reset_world K reader iso rbuf timeout message w hdrv (Or.inl hp1)
    have hs : ((iso.p1 : Int) - (K.CTBCS_UNIT_INTERFACE1 : Int)) = 0 := by
      rw [hp1]; omega
    rw [hs] at hw
    exact ⟨h, e, hw⟩
  · intro hp1 hdrv
    obtain ⟨h, e, hw⟩ := reset_world K reader iso rbuf timeout message w hdrv (Or.inr hp1)
    have hs : ((iso.p1 : Int) - (K.CTBCS_UNIT_INTERFACE1 : Int)) = 1 := by
      rw [hp1, h12]; omega
    rw [hs] at hw
    exact ⟨h, e, hw⟩
  · intro h1 h2 hc
    exact ⟨reset_bad_unit K reader iso rbuf timeout message w h1 h2 hc,
      by simp [ct_buf_data, ct_buf_avail, be16]⟩

theorem C14_reset_unit_selection_witness :
    (∃ h, ifd_ctapi_reset ctbcs example_reader
          { cla := 0x20, ins := 0x11, p1 := 0x01, p2 := 0x01, le := 0 }
          (ct_buf_init (List.replicate 8 0) 8) 0 none example_world = .ok h
        ∧ h.w = { drv := 1, calls := [Call.card_reset 0] })
    ∧ (∃ h, ifd_ctapi_reset ctbcs example_reader
          { cla := 0x20, ins := 0x11, p1 := 0x02, p2 := 0x01, le := 0 }
          (ct_buf_init (List.replicate 8 0) 8) 0 none example_world = .ok h
        ∧ h.w = { drv := 0, calls := [Call.card_reset 1] })
    ∧ ifd_ctapi_reset ctbcs example_reader
          { cla := 0x20, ins := 0x11, p1 := 0x00, p2 := 0x01, le := 0 }
          (ct_buf_init (List.replicate 4 0) 4) 0 none example_world
        = .ok { rc := 2,
                rbuf := { base := [0x6a, 0x00, 0, 0], head := 0, tail := 2, size := 4 },
                w := { drv := 0, calls := [] } } := by
  have hdrv : DriverContract example_reader := by
    intro s slot
    unfold example_reader
    dsimp only
    split_ifs <;> simp
  exact
    ⟨(C14_reset_unit_selection ctbcs example_reader
        { cla := 0x20, ins := 0x11, p1 := 0x01, p2 := 0x01, le := 0 }
        (ct_buf_init (List.replicate 8 0) 8) 0 none example_world rfl).1 rfl hdrv,
     (C14_reset_unit_selection ctbcs example_reader
        { cla := 0x20, ins := 0x11, p1 := 0x02, p2 := 0x01, le := 0 }
        (ct_buf_init (List.replicate 8 0) 8) 0 none example_world rfl).2.1 rfl hdrv,
     ((C14_reset_unit_selection ctbcs example_reader
        { cla := 0x20, ins := 0x11, p1 := 0x00, p2 := 0x01, le := 0 }
        (ct_buf_init (List.replicate 4 0) 4) 0 none example_world rfl).2.2
        (by decide) (by decide) (by decide)).1⟩

/-- C15: for a RESET command of the CTBCS class with a supported unit in P1 and
the low nibble of P2 asking for the historical bytes only, when the driver reset
succeeds, `ifd_ctapi_control` returns 2 and the response is exactly the two
bytes of the bad-params status word, whatever return code and ATR the driver
gave: no ATR byte and no success status word is emitted. -/
theorem C15_control_reset_get_hist {σ : Type} (K : Consts)
    (parse : List Nat → Nat → Option ifd_iso_apdu_t) (reader : ifd_reader_t σ)
    (cmd : List Nat) (cmd_len : Nat) (rsp : List Nat) (rsp_len : Nat) (w : World σ)
    (iso : ifd_iso_apdu_t)
    (hparse : parse cmd cmd_len = some iso) (hcla : iso.cla = K.CTBCS_CLA)
    (hins : iso.ins = K.CTBCS_INS_RESET)
    (hunit : iso.p1 = K.CTBCS_UNIT_INTERFACE1 ∨ iso.p1 = K.CTBCS_UNIT_INTERFACE2)
    (hp2 : iso.p2 &&& 0xF = K.CTBCS_P2_RESET_GET_HIST)
    (hd1 : K.CTBCS_P2_RESET_GET_HIST ≠ K.CTBCS_P2_RESET_NO_RESP)
    (hd2 : K.CTBCS_P2_RESET_GET_HIST ≠ K.CTBCS_P2_RESET_GET_ATR)
    (hok : 0 ≤ (reader.card_reset w.drv
                  ((iso.p1 : Int) - (K.CTBCS_UNIT_INTERFACE1 : Int)) 64).1)
    (hcap : 2 ≤ rsp_len) :
    ∃ out, ifd_ctapi_control K parse reader cmd cmd_len rsp rsp_len w = .ok out
      ∧ out.rc = 2 ∧ out.response = be16 K.CTBCS_SW_BAD_PARAMS
      ∧ out.w.drv = (reader.card_reset w.drv
              ((iso.p1 : Int) - (K.CTBCS_UNIT_INTERFACE1 : Int)) 64).2.2
      ∧ out.w.calls = w.calls ++ [Call.apdu_parse,
              Call.card_reset ((iso.p1 : Int) - (K.CTBCS_UNIT_INTERFACE1 : Int))] := by
  have hreset := reset_get_hist K reader iso (ct_buf_init rsp rsp_len) 0 none
    { w with calls := w.calls ++ [Call.apdu_parse] } hunit hok hp2 hd1 hd2
    (by simpa [ct_buf_init] using hcap)
  dsimp only at hreset
  unfold ifd_ctapi_control
  dsimp only
  rw [if_neg (by omega), hparse]
  dsimp only
  rw [if_neg (by simp [hcla])]
  unfold ifd_ctapi_switch
  rw [if_pos hins, hreset]
  dsimp only
  rw [if_neg (by decide), if_neg (by simp [ct_buf_avail])]
  refine ⟨_, rfl, by simp [ct_buf_avail], ?_, rfl, by simp⟩
  simp [Outcome.response, ct_buf_avail, be16]

theorem C15_control_reset_get_hist_witness :
    ∃ out, ifd_ctapi_control ctbcs apdu_parse_short example_reader
        [0x20, 0x11, 0x01, 0x02, 0x00] 5 (List.replicate 8 0) 8 example_world = .ok out
      ∧ out.rc = 2 ∧ out.response = [0x6a, 0x00]
      ∧ out.w.drv = 1 ∧ out.w.calls = [Call.apdu_parse, Call.card_reset 0] :=
  C15_control_reset_get_hist ctbcs apdu_parse_short example_reader
    [0x20, 0x11, 0x01, 0x02, 0x00] 5 (List.replicate 8 0) 8 example_world
    { cla := 0x20, ins := 0x11, p1 := 0x01, p2 := 0x02, le := 256 }
    rfl rfl rfl (by decide) (by decide) (by decide) (by decide) (by decide) (by decide)

/-- C19: in `ifd_ctapi_reset`, for a supported unit and a P2 whose low nibble
is none of the three response-shape selectors, a successful driver reset gives
the very result of the no-response mode on the same unit; on a fresh response
buffer of capacity at least 2 that is return code 0 with exactly 0x90, 0x00 in
the buffer: the success status word and no ATR byte, not a bad-params
answer. -/
theorem C19_reset_undefined_shape_is_no_resp {σ : Type} (K : Consts)
    (reader : ifd_reader_t σ) (iso iso0 : ifd_iso_apdu_t) (rbuf : ct_buf_t) (timeout : Nat)
    (message : Option (List Nat)) (w : World σ)
    (hunit : iso.p1 = K.CTBCS_UNIT_INTERFACE1 ∨ iso.p1 = K.CTBCS_UNIT_INTERFACE2)
    (hok : 0 ≤ (reader.card_reset w.drv
                  ((iso.p1 : Int) - (K.CTBCS_UNIT_INTERFACE1 : Int)) 64).1)
    (h1 : iso.p2 &&& 0xF ≠ K.CTBCS_P2_RESET_NO_RESP)
    (h2 : iso.p2 &&& 0xF ≠ K.CTBCS_P2_RESET_GET_ATR)
    (h3 : iso.p2 &&& 0xF ≠ K.CTBCS_P2_RESET_GET_HIST)
    (hp1 : iso0.p1 = iso.p1) (hp2 : iso0.p2 &&& 0xF = K.CTBCS_P2_RESET_NO_RESP) :
    ifd_ctapi_reset K reader iso rbuf timeout message w
        = ifd_ctapi_reset K reader iso0 rbuf timeout message w
      ∧ (∀ (rsp : List Nat) (c : Nat), 2 ≤ c → rbuf = ct_buf_init rsp c →
          ∃ bp1, ifd_ctapi_reset K reader iso rbuf timeout message w
              = .ok { rc := 0, rbuf := bp1,
                      w := { drv := (reader.card_reset w.drv
                                ((iso.p1 : Int) - (K.CTBCS_UNIT_INTERFACE1 : Int)) 64).2.2,
                             calls := w.calls ++ [Call.card_reset
                                ((iso.p1 : Int) - (K.CTBCS_UNIT_INTERFACE1 : Int))] } }
            ∧ ct_buf_data bp1 = [0x90, 0x00]) := by
  have e := reset_undefined_shape K reader iso rbuf timeout message w hunit hok h1 h2 h3
  have e0 := reset_no_resp K reader iso0 rbuf timeout message w (by rw [hp1]; exact hunit)
    (by rw [hp1]; exact hok) hp2
  rw [hp1] at e0
  refine ⟨by rw [e, e0], ?_⟩
  intro rsp c hc hr
  subst hr
  obtain ⟨bp1, es, hb1, ht1, hd1⟩ := reset_send_ok K
    (reader.card_reset w.drv ((iso.p1 : Int) - (K.CTBCS_UNIT_INTERFACE1 : Int)) 64).2.1 0
    ({ drv := (reader.card_reset w.drv
                ((iso.p1 : Int) - (K.CTBCS_UNIT_INTERFACE1 : Int)) 64).2.2,
       calls := w.calls ++ [Call.card_reset
                ((iso.p1 : Int) - (K.CTBCS_UNIT_INTERFACE1 : Int))] } : World σ)
    (WBuf_init rsp c) (Nat.zero_le _) (by simpa [ct_buf_init] using hc)
  refine ⟨bp1, by rw [e, es], ?_⟩
  have ha : ct_buf_avail bp1 = bp1.tail := by simp [ct_buf_avail, hb1.1]
  unfold ct_buf_data
  rw [ha, hb1.1, List.drop_zero, hd1]
  simp [ct_buf_init, be16]

theorem C19_reset_undefined_shape_is_no_resp_witness :
    ifd_ctapi_reset ctbcs example_reader
        { cla := 0x20, ins := 0x11, p1 := 0x01, p2 := 0x07, le := 0 }
        (ct_buf_init (List.replicate 4 0) 4) 0 none example_world
      = ifd_ctapi_reset ctbcs example_reader
        { cla := 0x20, ins := 0x11, p1 := 0x01, p2 := 0x00, le := 0 }
        (ct_buf_init (List.replicate 4 0) 4) 0 none example_world
    ∧ ∃ bp1, ifd_ctapi_reset ctbcs example_reader
          { cla := 0x20, ins := 0x11, p1 := 0x01, p2 := 0x07, le := 0 }
          (ct_buf_init (List.replicate 4 0) 4) 0 none example_world
        = .ok { rc := 0, rbuf := bp1, w := { drv := 1, calls := [Call.card_reset 0] } }
      ∧ ct_buf_data bp1 = [0x90, 0x00] :=
  ⟨(C19_reset_undefined_shape_is_no_resp ctbcs example_reader
      { cla := 0x20, ins := 0x11, p1 := 0x01, p2 := 0x07, le := 0 }
      { cla := 0x20, ins := 0x11, p1 := 0x01, p2 := 0x00, le := 0 }
      (ct_buf_init (List.replicate 4 0) 4) 0 none example_world
      (by decide) (by decide) (by decide) (by decide) (by decide) rfl (by decide)).1,
   (C19_reset_undefined_shape_is_no_resp ctbcs example_reader
      { cla := 0x20, ins := 0x11, p1 := 0x01, p2 := 0x07, le := 0 }
      { cla := 0x20, ins := 0x11, p1 := 0x01, p2 := 0x00, le := 0 }
      (ct_buf_init (List.replicate 4 0) 4) 0 none example_world
      (by decide) (by decide) (by decide) (by decide) (by decide) rfl (by decide)).2
      (List.replicate 4 0) 4 (by decide) rfl⟩

/-! ## The entry point `CT_data` -/

/-- C16: `CT_data` with destination address 2 returns `ERR_INVALID` for every
terminal index, lookup result, source selector, command and response region;
the response-length variable, the response region and the world (driver state
and call log) are exactly as they were, so neither a driver command nor the
dispatcher ran. -/
theorem C16_CT_data_destination_2 {σ : Type} (K : Consts)
    (parse : List Nat → Nat → Option ifd_iso_apdu_t)
    (ifd_reader_by_index : Nat → Option (ifd_reader_t σ))
    (ctn : Nat) (sad : Option Nat) (lc : Nat) (cmd : List Nat)
    (lr : Nat) (rsp : List Nat) (w : World σ) :
    CT_data K parse ifd_reader_by_index ctn (some 2) sad lc cmd lr rsp w
      = .ok { ret := K.ERR_INVALID, lr := lr, rsp := rsp, w := w } := by
  unfold CT_data
  cases ifd_reader_by_index ctn with
  | none => rfl
  | some reader =>
    cases sad with
    | none => rfl
    | some s => rfl

/-! ## Memory safety and termination of the TLV walk -/

theorem tlv_walk_total : ∀ (fuel : Nat) (sbuf : ct_buf_t) (msgbuf : List Nat) (timeout : Nat),
    ct_buf_avail sbuf ≤ 2 * fuel → msgbuf.length = 256 →
    ∃ r, tlv_walk fuel sbuf msgbuf timeout = .ok r ∧ r.msgbuf.length = 256 := by
  intro fuel
  induction fuel with
  | zero =>
    intro sbuf msgbuf timeout hf hm
    unfold tlv_walk
    rw [if_pos (by omega)]
    exact ⟨_, rfl, hm⟩
  | succ fuel ih =>
    intro sbuf msgbuf timeout hf hm
    rw [tlv_walk]
    split_ifs with h0
    · exact ⟨_, rfl, hm⟩
    · dsimp only
      split
      · exact ⟨_, rfl, hm⟩
      · rename_i t sbuf1 hg1
        obtain ⟨_, ha1, _⟩ := ct_buf_get_some hg1
        split
        · exact ⟨_, rfl, hm⟩
        · rename_i l sbuf2 hg2
          obtain ⟨_, ha2, _⟩ := ct_buf_get_some hg2
          have hlen : l.headD 0 % 256 < 256 := Nat.mod_lt _ (by decide)
          have hfuel2 : ct_buf_avail sbuf2 ≤ 2 * fuel := by omega
          split_ifs with hshort h50 hoob h80 hne
          · exact ⟨_, rfl, hm⟩
          · omega
          · split
            · exact ih _ _ _ hfuel2 (by simpa using hm)
            · rename_i v sbuf3 hg3
              obtain ⟨_, ha3, hv⟩ := ct_buf_get_some hg3
              exact ih _ _ _ (by omega) (msgbuf_store_length msgbuf v _ hm hv hlen)
          · exact ⟨_, rfl, hm⟩
          · split
            · exact ih _ _ _ hfuel2 hm
            · rename_i v sbuf3 hg3
              obtain ⟨_, ha3, _⟩ := ct_buf_get_some hg3
              exact ih _ _ _ (by omega) hm
          · split
            · exact ih _ _ _ hfuel2 hm
            · rename_i v sbuf3 hg3
              obtain ⟨_, ha3, _⟩ := ct_buf_get_some hg3
              exact ih _ _ _ (by omega) hm

theorem ct_buf_get_fits (bp : ct_buf_t) (n : Nat) (h : ¬ ct_buf_avail bp < n) :
    ∃ v bp1, ct_buf_get bp n = some (v, bp1) ∧ v.length ≤ n := by
  unfold ct_buf_get
  rw [if_neg (by omega)]
  exact ⟨_, _, rfl, by simp⟩

/-- C20: the TLV walk of `ifd_ctapi_request_icc` is memory safe and
terminates, for every view buffer.  Started on a 256-byte message array with
fuel for one iteration per two bytes of the view buffer, it returns a result
(it neither runs out of fuel, each iteration aborting or consuming at least 2
bytes, nor writes outside the array, which still has 256 bytes at the end);
this holds in particular for the walk the handler starts.  A copy of an entry
whose one-byte length passed the check against the bytes remaining cannot
fail and moves at most 255 bytes, so the terminator lands at an index of at
most 255. -/
theorem C20_tlv_walk_safe_and_terminating (fuel : Nat) (sbuf : ct_buf_t)
    (msgbuf : List Nat) (timeout : Nat)
    (hm : msgbuf.length = 256) (hf : ct_buf_avail sbuf ≤ 2 * fuel) :
    (∃ r, tlv_walk fuel sbuf msgbuf timeout = .ok r ∧ r.msgbuf.length = 256)
    ∧ (∃ r, tlv_walk (ct_buf_avail sbuf) sbuf ((List.replicate 256 0).set 0 0) 0 = .ok r
        ∧ r.msgbuf.length = 256)
    ∧ (∀ (bp : ct_buf_t) (l : Nat), ¬ ct_buf_avail bp < l % 256 →
        ∃ v bp1, ct_buf_get bp (l % 256) = some (v, bp1) ∧ v.length ≤ 255
          ∧ l % 256 ≤ 255) := by
  refine ⟨tlv_walk_total fuel sbuf msgbuf timeout hf hm,
    tlv_walk_total _ sbuf _ 0 (by omega) (by rw [List.length_set, List.length_replicate]), ?_⟩
  intro bp l hfit
  have hl : l % 256 < 256 := Nat.mod_lt _ (by decide)
  obtain ⟨v, bp1, e, hv⟩ := ct_buf_get_fits bp (l % 256) hfit
  exact ⟨v, bp1, e, by omega, by omega⟩

theorem C20_tlv_walk_safe_and_terminating_witness :
    ∃ r, tlv_walk 3 (ct_buf_set [0x50, 0x02, 0x48, 0x69, 0x80, 0x01] 6)
          ((List.replicate 256 0).set 0 0) 0 = .ok r
      ∧ r.msgbuf.length = 256 :=
  (C20_tlv_walk_safe_and_terminating 3 (ct_buf_set [0x50, 0x02, 0x48, 0x69, 0x80, 0x01] 6)
    ((List.replicate 256 0).set 0 0) 0
    (by rw [List.length_set, List.length_replicate]) (by decide)).1

/-! ## The bounded buffer -/

theorem BufInv_apply (bp : ct_buf_t) (op : BufOp) (h : BufInv bp) :
    BufInv (buf_apply bp op) := by
  obtain ⟨_, h1, h2⟩ := h
  cases op with
  | put data n =>
    unfold buf_apply ct_buf_put ct_buf_tailroom
    dsimp only
    split_ifs with hr
    · exact ⟨Nat.zero_le _, h1, h2⟩
    · exact ⟨Nat.zero_le _, by dsimp only; omega, by dsimp only; omega⟩
  | get n =>
    unfold buf_apply ct_buf_get ct_buf_avail
    dsimp only
    split_ifs with hr
    · exact ⟨Nat.zero_le _, h1, h2⟩
    · exact ⟨Nat.zero_le _, by dsimp only; omega, h2⟩
  | clear =>
    exact ⟨Nat.zero_le _, Nat.le_refl _, Nat.zero_le _⟩
  | compact =>
    unfold buf_apply ct_buf_compact ct_buf_avail
    exact ⟨Nat.zero_le _, Nat.zero_le _, by dsimp only; omega⟩

theorem BufInv_run (ops : List BufOp) : ∀ (bp : ct_buf_t), BufInv bp →
    BufInv (buf_run bp ops) := by
  induction ops with
  | nil => intro bp h; exact h
  | cons op ops ih =>
    intro bp h
    exact ih _ (BufInv_apply bp op h)

/-- C18: the cursor invariant `0 ≤ head ≤ tail ≤ size` holds for a buffer
built by `ct_buf_init` (where `head = tail = 0`, `size` the capacity) or by
`ct_buf_set` (where `head = 0`, `tail = size` the length) and after every
sequence of `put`, `get`, `clear` and `compact` calls on it, successful or
failed; and a `put` of more bytes than the tailroom, or a `get` of more bytes
than are occupied, fails and leaves the buffer, hence `head` and `tail`, as
it was. -/
theorem C18_buffer_invariant (mem : List Nat) (len : Nat) (ops : List BufOp) :
    BufInv (buf_run (ct_buf_init mem len) ops)
    ∧ BufInv (buf_run (ct_buf_set mem len) ops)
    ∧ (∀ (bp : ct_buf_t) (data : List Nat) (n : Nat), ct_buf_tailroom bp < n →
        ct_buf_put bp data n = none ∧ buf_apply bp (BufOp.put data n) = bp)
    ∧ (∀ (bp : ct_buf_t) (n : Nat), ct_buf_avail bp < n →
        ct_buf_get bp n = none ∧ buf_apply bp (BufOp.get n) = bp) := by
  refine ⟨BufInv_run ops _ ⟨Nat.zero_le _, Nat.le_refl _, Nat.zero_le _⟩,
    BufInv_run ops _ ⟨Nat.zero_le _, Nat.zero_le _, Nat.le_refl _⟩, ?_, ?_⟩
  · intro bp data n h
    have e : ct_buf_put bp data n = none := by
      unfold ct_buf_put
      rw [if_pos h]
    refine ⟨e, ?_⟩
    unfold buf_apply
    dsimp only
    rw [e]
  · intro bp n h
    have e : ct_buf_get bp n = none := by
      unfold ct_buf_get
      rw [if_pos h]
    refine ⟨e, ?_⟩
    unfold buf_apply
    dsimp only
    rw [e]

theorem C18_buffer_invariant_witness :
    buf_run (ct_buf_init [0, 0, 0, 0] 4)
        [BufOp.put [1, 2, 3] 3, BufOp.get 2, BufOp.put [9, 9] 2, BufOp.compact,
         BufOp.get 5, BufOp.clear, BufOp.put [7] 1]
      = { base := [7, 2, 3, 0], head := 0, tail := 1, size := 4 }
    ∧ BufInv (buf_run (ct_buf_init [0, 0, 0, 0] 4)
        [BufOp.put [1, 2, 3] 3, BufOp.get 2, BufOp.put [9, 9] 2, BufOp.compact,
         BufOp.get 5, BufOp.clear, BufOp.put [7] 1])
    ∧ ct_buf_put { base := [1, 2, 3, 0], head := 2, tail := 3, size := 4 } [9, 9] 2 = none
    ∧ ct_buf_get { base := [3, 2, 3, 0], head := 0, tail := 1, size := 4 } 5 = none :=
  ⟨by decide,
   (C18_buffer_invariant [0, 0, 0, 0] 4
      [BufOp.put [1, 2, 3] 3, BufOp.get 2, BufOp.put [9, 9] 2, BufOp.compact,
       BufOp.get 5, BufOp.clear, BufOp.put [7] 1]).1,
   ((C18_buffer_invariant [0, 0, 0, 0] 4 []).2.2.1
      { base := [1, 2, 3, 0], head := 2, tail := 3, size := 4 } [9, 9] 2 (by decide)).1,
   ((C18_buffer_invariant [0, 0, 0, 0] 4 []).2.2.2
      { base := [3, 2, 3, 0], head := 0, tail := 1, size := 4 } 5 (by decide)).1⟩

/-! ## Routing in `CT_data` -/

theorem control_nonneg_post {σ : Type} (K : Consts)
    (parse : List Nat → Nat → Option ifd_iso_apdu_t) (reader : ifd_reader_t σ)
    (cmd : List Nat) (cmd_len : Nat) (rsp : List Nat) (rsp_len : Nat) (w : World σ)
    (out : Outcome σ) (hE : K.ERR_INVALID < 0) (hT : K.ERR_TRANS < 0)
    (hrun : ifd_ctapi_control K parse reader cmd cmd_len rsp rsp_len w = .ok out)
    (hn : 0 ≤ out.rc) :
    2 ≤ out.rc ∧ out.rc ≤ rsp_len ∧ out.response.length = out.rc.toNat
      ∧ ∃ sw ∈ K.status_words, out.response.drop (out.rc.toNat - 2) = be16 sw := by
  have key : ∀ (bp : ct_buf_t) (w1 : World σ), Resp K rsp_len bp →
      out = { rc := (ct_buf_avail bp : Nat), rsp := bp.base, w := w1 } →
      2 ≤ out.rc ∧ out.rc ≤ rsp_len ∧ out.response.length = out.rc.toNat
        ∧ ∃ sw ∈ K.status_words, out.response.drop (out.rc.toNat - 2) = be16 sw := by
    intro bp w1 hR e
    obtain ⟨h1, h2, h3, h4⟩ := Resp_outcome hR
    subst e
    simp only [Outcome.response, Int.toNat_ofNat]
    exact ⟨by exact_mod_cast h1, by exact_mod_cast h2, h3, h4⟩
  unfold ifd_ctapi_control at hrun
  dsimp only at hrun
  split_ifs at hrun with hcap
  · have e := Except.ok.inj hrun
    rw [← e] at hn
    exact absurd hn (by simpa using hE)
  · have hc : 2 ≤ rsp_len := by omega
    split at hrun
    · have e := Except.ok.inj hrun
      rw [← e] at hn
      exact absurd hn (by simpa using hE)
    · rename_i iso hparse
      split_ifs at hrun with hcla
      · have e := (Except.ok.inj hrun).symm
        exact key _ _ (error_Resp K _ _ rfl hc (sw_bad_class_mem K)).2 e
      · split at hrun
        · exact absurd hrun (by simp)
        · rename_i h hsw
          have hpost := switch_post K reader iso _ _ (WBuf_init rsp rsp_len) hc hE hsw
          split_ifs at hrun with hneg hlong
          · have e := Except.ok.inj hrun
            rw [← e] at hn
            exact absurd hn (by simpa using hneg)
          · have hsz : h.rbuf.size = rsp_len :=
              (HandlerPost_WBuf (WBuf_init rsp rsp_len) hpost).2.1
            have e := (Except.ok.inj hrun).symm
            exact key _ _ (error_Resp K _ _ hsz hc (sw_bad_length_mem K)).2 e
          · rcases hpost with ⟨e1, _⟩ | ⟨_, hR⟩
            · exact absurd hneg (by rw [e1]; simpa using hT)
            · have e := (Except.ok.inj hrun).symm
              exact key _ _ hR e

theorem CT_data_translate {σ : Type} (K : Consts) (lr : Nat) (n : Int) (rsp : List Nat)
    (w : World σ) (hOK : K.OK ≠ K.ERR_INVALID) (hn : n ≤ lr) (hlr : lr < 65536)
    (o : DataOutcome σ)
    (ho : o = if n < 0 then { ret := K.ERR_INVALID, lr := lr, rsp := rsp, w := w }
              else { ret := K.OK, lr := n.toNat % 65536, rsp := rsp, w := w }) :
    (o.ret = K.OK ∨ o.ret = K.ERR_INVALID)
      ∧ (o.ret = K.OK ↔ ∃ m, some n = some m ∧ (0 : Int) ≤ m)
      ∧ (∀ m, some n = some m → (0 : Int) ≤ m → (o.lr : Int) = m)
      ∧ (o.ret = K.ERR_INVALID → o.lr = lr) := by
  subst ho
  by_cases hneg : n < 0
  · rw [if_pos hneg]
    refine ⟨Or.inr rfl, ⟨fun h => absurd h.symm hOK, ?_⟩, ?_, fun _ => rfl⟩
    · rintro ⟨m, hm, h0⟩
      have := Option.some.inj hm
      omega
    · intro m hm h0
      have := Option.some.inj hm
      omega
  · rw [if_neg hneg]
    refine ⟨Or.inl rfl, ⟨fun _ => ⟨n, rfl, by omega⟩, fun _ => rfl⟩, ?_,
      fun h => absurd h hOK⟩
    intro m hm _
    have := Option.some.inj hm
    subst this
    dsimp only
    have h1 : n.toNat < 65536 := by omega
    rw [Nat.mod_eq_of_lt h1]
    omega

theorem CT_data_unrouted {σ : Type} (K : Consts) (lr : Nat) (rsp : List Nat) (w : World σ)
    (hOK : K.OK ≠ K.ERR_INVALID) (o : DataOutcome σ)
    (ho : o = { ret := K.ERR_INVALID, lr := lr, rsp := rsp, w := w }) :
    (o.ret = K.OK ∨ o.ret = K.ERR_INVALID)
      ∧ (o.ret = K.OK ↔ ∃ m, (none : Option Int) = some m ∧ (0 : Int) ≤ m)
      ∧ (∀ m, (none : Option Int) = some m → (0 : Int) ≤ m → (o.lr : Int) = m)
      ∧ (o.ret = K.ERR_INVALID → o.lr = lr) := by
  subst ho
  refine ⟨Or.inr rfl, ⟨fun h => absurd h.symm hOK, ?_⟩, ?_, fun _ => rfl⟩
  · rintro ⟨m, hm, _⟩
    exact absurd hm (by simp)
  · intro m hm
    exact absurd hm (by simp)

/-- C17: `CT_data` returns `OK` or `ERR_INVALID` and nothing else.  It returns
`OK` exactly when a routed operation exists and returns a non-negative value
`n`, that is, when the terminal index resolves, both selectors are non-null,
the destination is 0, 1 or 3, and the driver card command on slot 0
(destination 0) or slot 1 (destination 3), called with the command bytes,
length, response region and capacity as given, or the dispatcher (destination
1) returns `n ≥ 0`; the response-length variable is then `n`.  In every other
case, a negative code of the routed operation included, it returns
`ERR_INVALID` and the response-length variable is as it was.  Here the two
return codes differ, the error codes are negative, the response length fits an
`unsigned short`, and the driver reports no more bytes than the capacity it
was given. -/
theorem C17_CT_data_routing {σ : Type} (K : Consts)
    (parse : List Nat → Nat → Option ifd_iso_apdu_t)
    (ifd_reader_by_index : Nat → Option (ifd_reader_t σ))
    (ctn : Nat) (dad : Option Nat) (sad : Option Nat) (lc : Nat) (cmd : List Nat)
    (lr : Nat) (rsp : List Nat) (w : World σ)
    (hOK : K.OK ≠ K.ERR_INVALID) (hE : K.ERR_INVALID < 0) (hT : K.ERR_TRANS < 0)
    (hlr : lr < 65536)
    (hcmd : ∀ (reader : ifd_reader_t σ) (slot : Nat), ifd_reader_by_index ctn = some reader →
      (reader.card_command w.drv slot cmd lc rsp lr).1 ≤ lr)
    (hdrv : ∀ (reader : ifd_reader_t σ), ifd_reader_by_index ctn = some reader →
      DriverContract reader) :
    ∃ o, CT_data K parse ifd_reader_by_index ctn dad sad lc cmd lr rsp w = .ok o
      ∧ (o.ret = K.OK ∨ o.ret = K.ERR_INVALID)
      ∧ (o.ret = K.OK ↔
          ∃ n, routed_rc K parse ifd_reader_by_index ctn dad sad lc cmd lr rsp w = some n
            ∧ (0 : Int) ≤ n)
      ∧ (∀ n, routed_rc K parse ifd_reader_by_index ctn dad sad lc cmd lr rsp w = some n →
          (0 : Int) ≤ n → (o.lr : Int) = n)
      ∧ (o.ret = K.ERR_INVALID → o.lr = lr) := by
  unfold CT_data routed_rc
  cases hl : ifd_reader_by_index ctn with
  | none => exact ⟨_, rfl, CT_data_unrouted K lr rsp w hOK _ rfl⟩
  | some reader =>
    cases sad with
    | none => exact ⟨_, rfl, CT_data_unrouted K lr rsp w hOK _ rfl⟩
    | some s =>
      cases dad with
      | none => exact ⟨_, rfl, CT_data_unrouted K lr rsp w hOK _ rfl⟩
      | some d =>
        dsimp only
        by_cases h0 : d = 0
        · rw [if_pos h0, if_pos h0]
          exact ⟨_, rfl, CT_data_translate K lr _ _ _ hOK (hcmd reader 0 hl) hlr _ rfl⟩
        · rw [if_neg h0, if_neg h0]
          by_cases h1 : d = 1
          · have h3 : ¬ d = 3 := by omega
            rw [if_pos h1, if_neg h3, if_pos h1]
            obtain ⟨out, hout⟩ := control_returns K parse reader cmd lc rsp lr w (hdrv reader hl)
            rw [hout]
            dsimp only
            have hle : out.rc ≤ lr := by
              by_cases hneg : out.rc < 0
              · omega
              · exact (control_nonneg_post K parse reader cmd lc rsp lr w out hE hT hout
                  (by omega)).2.1
            exact ⟨_, rfl, CT_data_translate K lr _ _ _ hOK hle hlr _ rfl⟩
          · rw [if_neg h1]
            by_cases h2 : d = 2
            · have h3 : ¬ d = 3 := by omega
              rw [if_pos h2, if_neg h3, if_neg h1]
              exact ⟨_, rfl, CT_data_unrouted K lr rsp w hOK _ rfl⟩
            · rw [if_neg h2]
              by_cases h3 : d = 3
              · rw [if_pos h3, if_pos h3]
                exact ⟨_, rfl, CT_data_translate K lr _ _ _ hOK (hcmd reader 1 hl) hlr _ rfl⟩
              · rw [if_neg h3, if_neg h3, if_neg h1]
                exact ⟨_, rfl, CT_data_unrouted K lr rsp w hOK _ rfl⟩

theorem C17_CT_data_routing_witness :
    (∃ o, CT_data ctbcs apdu_parse_short example_lookup 0 (some 1) (some 2) 5
          [0x20, 0x13, 0x00, 0x80, 0x02] 8 (List.replicate 8 0) example_world = .ok o
        ∧ o.ret = ctbcs.OK ∧ o.lr = 4)
    ∧ (∃ o, CT_data ctbcs apdu_parse_short example_lookup 0 (some 1) (some 2) 4
          [0x20, 0x11, 0x02, 0x01] 8 (List.replicate 8 0) example_world = .ok o
        ∧ o.ret = ctbcs.ERR_INVALID ∧ o.lr = 8) := by
  have hcmd : ∀ (cmd : List Nat) (lc : Nat) (reader : ifd_reader_t Nat) (slot : Nat),
      example_lookup 0 = some reader →
      (reader.card_command example_world.drv slot cmd lc (List.replicate 8 0) 8).1
        ≤ ((8 : Nat) : Int) := by
    intro cmd lc reader slot h
    have e : example_reader = reader := Option.some.inj h
    subst e
    show (-1 : Int) ≤ ((8 : Nat) : Int)
    decide
  have hdrv : ∀ (reader : ifd_reader_t Nat), example_lookup 0 = some reader →
      DriverContract reader := by
    intro reader h
    have e : example_reader = reader := Option.some.inj h
    subst e
    intro s slot
    unfold example_reader
    dsimp only
    split_ifs <;> simp
  constructor
  · obtain ⟨o, h1, _, h3, h4, _⟩ :=
      C17_CT_data_routing ctbcs apdu_parse_short example_lookup 0 (some 1) (some 2) 5
        [0x20, 0x13, 0x00, 0x80, 0x02] 8 (List.replicate 8 0) example_world
        (by decide) (by decide) (by decide) (by decide) (hcmd _ _) hdrv
    have hr : routed_rc ctbcs apdu_parse_short example_lookup 0 (some 1) (some 2) 5
        [0x20, 0x13, 0x00, 0x80, 0x02] 8 (List.replicate 8 0) example_world = some 4 := rfl
    have hlr := h4 4 hr (by decide)
    exact ⟨o, h1, h3.mpr ⟨4, hr, by decide⟩, by exact_mod_cast hlr⟩
  · obtain ⟨o, h1, h2, h3, _, h5⟩ :=
      C17_CT_data_routing ctbcs apdu_parse_short example_lookup 0 (some 1) (some 2) 4
        [0x20, 0x11, 0x02, 0x01] 8 (List.replicate 8 0) example_world
        (by decide) (by decide) (by decide) (by decide) (hcmd _ _) hdrv
    have hr : routed_rc ctbcs apdu_parse_short example_lookup 0 (some 1) (some 2) 4
        [0x20, 0x11, 0x02, 0x01] 8 (List.replicate 8 0) example_world = some (-10) := rfl
    have hbad : o.ret = ctbcs.ERR_INVALID := by
      rcases h2 with hok | hinv
      · obtain ⟨n, hn, h0⟩ := h3.mp hok
        rw [hr] at hn
        have := Option.some.inj hn
        omega
      · exact hinv
    exact ⟨o, h1, hbad, h5 hbad⟩

end Ctapi
